import Mathlib

/-!
Upload and synchronisation engine of the rport client (`client/upload.go`).

A shallow embedding of `UploadManager.HandleUploadRequest` and of the functions it
calls, of `SftpSession.Close`, and of the library functions they rely on
(`crypto/md5`, `path/filepath` on Unix, the `%x` verb of `fmt`, `strings.Join`).

* Go `error` values are represented by their text (`Error := String`); a function
  returning `error` returns `Option Error` (`none` is `nil`), a function returning
  `(T, error)` returns `Except Error T`.
* `[]byte` is `List Nat` (every element below 256), `os.FileMode` is a `Nat`.
* The filesystem interface `files.FileAPI` and the `SourceFileProvider` are
  parameters of the manager.  Every call made through them is recorded in a trace.
* Calls to the logger have no effect on results and are left out.
-/

set_option autoImplicit false

namespace Upload

/-- Text of a Go `error`. -/
abbrev Error := String

/-- Go `[]byte`. -/
abbrev Bytes := List Nat

/-! ## `crypto/md5` -/

namespace md5

/-- Per-round left-rotation amounts of MD5 (RFC 1321). -/
def shifts : List Nat :=
  [7, 12, 17, 22, 7, 12, 17, 22, 7, 12, 17, 22, 7, 12, 17, 22,
   5, 9, 14, 20, 5, 9, 14, 20, 5, 9, 14, 20, 5, 9, 14, 20,
   4, 11, 16, 23, 4, 11, 16, 23, 4, 11, 16, 23, 4, 11, 16, 23,
   6, 10, 15, 21, 6, 10, 15, 21, 6, 10, 15, 21, 6, 10, 15, 21]

/-- Sine-derived constants of MD5 (RFC 1321). -/
def table : List Nat :=
  [0xd76aa478, 0xe8c7b756, 0x242070db, 0xc1bdceee, 0xf57c0faf, 0x4787c62a, 0xa8304613, 0xfd469501,
   0x698098d8, 0x8b44f7af, 0xffff5bb1, 0x895cd7be, 0x6b901122, 0xfd987193, 0xa679438e, 0x49b40821,
   0xf61e2562, 0xc040b340, 0x265e5a51, 0xe9b6c7aa, 0xd62f105d, 0x02441453, 0xd8a1e681, 0xe7d3fbc8,
   0x21e1cde6, 0xc33707d6, 0xf4d50d87, 0x455a14ed, 0xa9e3e905, 0xfcefa3f8, 0x676f02d9, 0x8d2a4c8a,
   0xfffa3942, 0x8771f681, 0x6d9d6122, 0xfde5380c, 0xa4beea44, 0x4bdecfa9, 0xf6bb4b60, 0xbebfbc70,
   0x289b7ec6, 0xeaa127fa, 0xd4ef3085, 0x04881d05, 0xd9d4d039, 0xe6db99e5, 0x1fa27cf8, 0xc4ac5665,
   0xf4292244, 0x432aff97, 0xab9423a7, 0xfc93a039, 0x655b59c3, 0x8f0ccc92, 0xffeff47d, 0x85845dd1,
   0x6fa87e4f, 0xfe2ce6e0, 0xa3014314, 0x4e0811a1, 0xf7537e82, 0xbd3af235, 0x2ad7d2bb, 0xeb86d391]

/-- Rotate a 32-bit word left by `s` bits. -/
def rotl (x s : Nat) : Nat :=
  ((x <<< s) ||| (x >>> (32 - s))) % 2 ^ 32

/-- Little-endian bytes of `x`, `n` of them. -/
def leBytes : Nat → Nat → Bytes
  | 0, _ => []
  | n + 1, x => (x % 256) :: leBytes n (x / 256)

/-- The 32-bit word stored little-endian in the first four bytes of `bs`. -/
def leWord (bs : Bytes) : Nat :=
  bs.getD 0 0 + 256 * bs.getD 1 0 + 65536 * bs.getD 2 0 + 16777216 * bs.getD 3 0

/-- The message followed by the MD5 padding and the 64-bit bit length. -/
def pad (msg : Bytes) : Bytes :=
  msg ++ [0x80] ++ List.replicate ((119 - msg.length % 64) % 64) 0
    ++ leBytes 8 ((8 * msg.length) % 2 ^ 64)

/-- One of the 64 steps of the MD5 compression function on block `blk`. -/
def step (blk : Bytes) (st : Nat × Nat × Nat × Nat) (i : Nat) : Nat × Nat × Nat × Nat :=
  let (a, b, c, d) := st
  let f :=
    if i < 16 then (b &&& c) ||| ((b ^^^ 0xffffffff) &&& d)
    else if i < 32 then (d &&& b) ||| ((d ^^^ 0xffffffff) &&& c)
    else if i < 48 then b ^^^ c ^^^ d
    else c ^^^ (b ||| (d ^^^ 0xffffffff))
  let g :=
    if i < 16 then i
    else if i < 32 then (5 * i + 1) % 16
    else if i < 48 then (3 * i + 5) % 16
    else (7 * i) % 16
  let x := (f + a + table.getD i 0 + leWord (blk.drop (4 * g))) % 2 ^ 32
  (d, (b + rotl x (shifts.getD i 0)) % 2 ^ 32, b, c)

/-- The MD5 compression function: the state after absorbing the 64-byte block `blk`. -/
def compress (st : Nat × Nat × Nat × Nat) (blk : Bytes) : Nat × Nat × Nat × Nat :=
  let (a, b, c, d) := (List.range 64).foldl (step blk) st
  ((st.1 + a) % 2 ^ 32, (st.2.1 + b) % 2 ^ 32, (st.2.2.1 + c) % 2 ^ 32, (st.2.2.2 + d) % 2 ^ 32)

/-- Go `md5.Sum` (`md5.New`, writes, `Sum(nil)`): the 16-byte MD5 digest of `msg`. -/
def Sum (msg : Bytes) : Bytes :=
  let p := pad msg
  let (a, b, c, d) :=
    (List.range (p.length / 64)).foldl
      (fun st k => compress st ((p.drop (64 * k)).take 64))
      (0x67452301, 0xefcdab89, 0x98badcfe, 0x10325476)
  leBytes 4 a ++ leBytes 4 b ++ leBytes 4 c ++ leBytes 4 d

end md5

/-! ## `fmt` and `strings` -/

/-- One lowercase hexadecimal digit. -/
def hexDigit (n : Nat) : Char :=
  if n < 10 then Char.ofNat (48 + n) else Char.ofNat (87 + n)

/-- Go `fmt.Sprintf("%x", b)` for a byte slice `b`: two lowercase hex digits per byte. -/
def hex (b : Bytes) : String :=
  String.mk (b.flatMap fun x => [hexDigit (x / 16 % 16), hexDigit (x % 16)])

/-- Go `strings.Join`. -/
def stringsJoin (elems : List String) (sep : String) : String :=
  sep.intercalate elems

/-! ## `path/filepath` (Unix) -/

namespace filepath

/-- The pieces of a path between its separators `/`. -/
def splitSep : List Char → List (List Char)
  | [] => [[]]
  | c :: cs =>
    match splitSep cs with
    | [] => [[]]
    | x :: xs => if c = '/' then [] :: x :: xs else (c :: x) :: xs

/-- The element stack of `Clean`: empty and `.` elements are dropped, `..` removes the
element before it, is dropped at the root and is kept at the start of a relative path. -/
def cleanElems (rooted : Bool) : List (List Char) → List (List Char) → List (List Char)
  | acc, [] => acc.reverse
  | acc, c :: cs =>
    if c = [] ∨ c = ['.'] then cleanElems rooted acc cs
    else if c = ['.', '.'] then
      match acc with
      | top :: rest =>
        if top = ['.', '.'] then cleanElems rooted (c :: acc) cs else cleanElems rooted rest cs
      | [] => if rooted then cleanElems rooted [] cs else cleanElems rooted [c] cs
    else cleanElems rooted (c :: acc) cs

/-- `filepath.Clean` on characters. -/
def cleanChars (path : List Char) : List Char :=
  let rooted := path.head? == some '/'
  let out := (if rooted then ['/'] else []) ++
    List.intercalate ['/'] (cleanElems rooted [] (splitSep path))
  if out = [] then ['.'] else out

/-- Go `filepath.Clean`. -/
def Clean (path : String) : String :=
  String.mk (cleanChars path.data)

/-- Go `filepath.Base`: the last element of the path, after removing trailing slashes. -/
def Base (path : String) : String :=
  if path.data = [] then "."
  else
    let stripped := (path.data.reverse.dropWhile (· == '/'))
    let last := (stripped.takeWhile (· != '/')).reverse
    if stripped = [] then "/" else String.mk last

/-- Go `filepath.Dir`: everything up to the last slash, cleaned. -/
def Dir (path : String) : String :=
  String.mk (cleanChars (path.data.reverse.dropWhile (· != '/')).reverse)

/-- Go `filepath.Join` of two elements. -/
def Join (a b : String) : String :=
  if a ≠ "" then Clean (a ++ "/" ++ b)
  else if b ≠ "" then Clean b
  else ""

end filepath

/-! ## Data model -/

/-- Go `io.ReadCloser` as the upload code observes it: the bytes the stream yields, the
error that ends it instead of EOF (if any), and the result of `Close`. -/
structure ReadCloser where
  data : Bytes
  readErr : Option Error
  closeErr : Option Error
  deriving DecidableEq, Repr

/-- Go `models.UploadedFile`, the fields `upload.go` reads. -/
structure UploadedFile where
  ID : String
  SourceFilePath : String
  DestinationPath : String
  DestinationFileMode : Nat
  DestinationFileOwner : String
  DestinationFileGroup : String
  ForceWrite : Bool
  Sync : Bool
  Md5Checksum : Bytes
  deriving DecidableEq, Repr

/-- Go `models.UploadResponseShort`. -/
structure UploadResponseShort where
  ID : String
  Filepath : String
  SizeBytes : Int
  deriving DecidableEq, Repr

/-- Go `models.UploadResponse`. -/
structure UploadResponse where
  UploadResponseShort : UploadResponseShort
  Message : String
  Status : String
  deriving DecidableEq, Repr

/-- A call made through `FilesAPI` or `SourceFileProvider`, with its arguments. -/
inductive Call where
  | Exist (path : String)
  | Open (path : String)
  | FileModeMatch (path : String) (mode : Nat)
  | FileOwnerOrGroupMatch (path owner group : String)
  | CreateDirIfNotExists (path : String) (mode : Nat)
  | CreateFile (path : String)
  | ChangeMode (path : String) (mode : Nat)
  | ChangeOwner (path owner group : String)
  | Remove (path : String)
  | Rename (oldPath newPath : String)
  | SourceOpen (path : String)
  | SourceClose (path : String)
  deriving DecidableEq, Repr

/-- Whether a call can change the local filesystem. -/
def Call.mutating : Call → Bool
  | .CreateDirIfNotExists _ _ => true
  | .CreateFile _ => true
  | .ChangeMode _ _ => true
  | .ChangeOwner _ _ _ => true
  | .Remove _ => true
  | .Rename _ _ => true
  | _ => false

/-- Whether a call is one of the queries of the divergence check (`fileShouldBeSynched`). -/
def Call.divergenceQuery : Call → Bool
  | .Open _ => true
  | .FileModeMatch _ _ => true
  | .FileOwnerOrGroupMatch _ _ _ => true
  | _ => false

/-- Go interface `files.FileAPI` over a filesystem state `σ`: the queries read the state,
the other operations return their result together with the new state. -/
structure FileAPI (σ : Type) where
  Exist : String → σ → Except Error Bool
  Open : String → σ → Except Error ReadCloser
  FileModeMatch : String → Nat → σ → Except Error Bool
  FileOwnerOrGroupMatch : String → String → String → σ → Except Error Bool
  CreateDirIfNotExists : String → Nat → σ → Except Error Bool × σ
  CreateFile : String → ReadCloser → σ → Except Error (Int × Bytes) × σ
  ChangeMode : String → Nat → σ → Option Error × σ
  ChangeOwner : String → String → String → σ → Option Error × σ
  Remove : String → σ → Option Error × σ
  Rename : String → String → σ → Option Error × σ

/-- The filesystem state together with the calls made so far, oldest first. -/
structure World (σ : Type) where
  fs : σ
  trace : List Call

/-- Record a call. -/
def World.log {σ : Type} (w : World σ) (c : Call) : World σ :=
  { w with trace := w.trace ++ [c] }

/-- Go `UploadManager`: the filesystem interface, the options provider (its upload
directory), the source file provider (its `Open`), and the payload parsing and
validation done by `getUploadedFile`.  `DefaultMode` is the constant `files.DefaultMode`,
declared outside these sources. -/
structure UploadManager (σ : Type) where
  FilesAPI : FileAPI σ
  DefaultMode : Nat
  GetUploadDir : String
  SourceFileProviderOpen : String → Except Error ReadCloser
  getUploadedFile : Bytes → Except Error UploadedFile

namespace UploadManager

variable {σ : Type}

/-! ### Calls through the interfaces, recorded in the trace -/

def callExist (c : UploadManager σ) (path : String) (w : World σ) :
    Except Error Bool × World σ :=
  (c.FilesAPI.Exist path w.fs, w.log (.Exist path))

def callOpen (c : UploadManager σ) (path : String) (w : World σ) :
    Except Error ReadCloser × World σ :=
  (c.FilesAPI.Open path w.fs, w.log (.Open path))

def callFileModeMatch (c : UploadManager σ) (path : String) (mode : Nat) (w : World σ) :
    Except Error Bool × World σ :=
  (c.FilesAPI.FileModeMatch path mode w.fs, w.log (.FileModeMatch path mode))

def callFileOwnerOrGroupMatch (c : UploadManager σ) (path owner group : String)
    (w : World σ) : Except Error Bool × World σ :=
  (c.FilesAPI.FileOwnerOrGroupMatch path owner group w.fs,
    w.log (.FileOwnerOrGroupMatch path owner group))

def callCreateDirIfNotExists (c : UploadManager σ) (path : String) (mode : Nat)
    (w : World σ) : Except Error Bool × World σ :=
  let r := c.FilesAPI.CreateDirIfNotExists path mode w.fs
  (r.1, { fs := r.2, trace := w.trace ++ [.CreateDirIfNotExists path mode] })

def callCreateFile (c : UploadManager σ) (path : String) (src : ReadCloser) (w : World σ) :
    Except Error (Int × Bytes) × World σ :=
  let r := c.FilesAPI.CreateFile path src w.fs
  (r.1, { fs := r.2, trace := w.trace ++ [.CreateFile path] })

def callChangeMode (c : UploadManager σ) (path : String) (mode : Nat) (w : World σ) :
    Option Error × World σ :=
  let r := c.FilesAPI.ChangeMode path mode w.fs
  (r.1, { fs := r.2, trace := w.trace ++ [.ChangeMode path mode] })

def callChangeOwner (c : UploadManager σ) (path owner group : String) (w : World σ) :
    Option Error × World σ :=
  let r := c.FilesAPI.ChangeOwner path owner group w.fs
  (r.1, { fs := r.2, trace := w.trace ++ [.ChangeOwner path owner group] })

def callRemove (c : UploadManager σ) (path : String) (w : World σ) :
    Option Error × World σ :=
  let r := c.FilesAPI.Remove path w.fs
  (r.1, { fs := r.2, trace := w.trace ++ [.Remove path] })

def callRename (c : UploadManager σ) (oldPath newPath : String) (w : World σ) :
    Option Error × World σ :=
  let r := c.FilesAPI.Rename oldPath newPath w.fs
  (r.1, { fs := r.2, trace := w.trace ++ [.Rename oldPath newPath] })

def callSourceOpen (c : UploadManager σ) (path : String) (w : World σ) :
    Except Error ReadCloser × World σ :=
  (c.SourceFileProviderOpen path, w.log (.SourceOpen path))

/-- The deferred `remoteFile.Close()`; its result is discarded by the caller. -/
def callSourceClose (_c : UploadManager σ) (path : String) (w : World σ) : World σ :=
  w.log (.SourceClose path)

/-! ### The functions of `upload.go` -/

/-- Go `UploadManager.hashSumMatch`. -/
def hashSumMatch (c : UploadManager σ) (path : String) (expectedHashSum : Bytes)
    (w : World σ) : Except Error Bool × World σ :=
  match c.callOpen path w with
  | (.error err, w1) => (.error err, w1)
  | (.ok file, w1) =>
    match file.readErr with
    | some err => (.error ("failed to calculate md5 checksum for " ++ path ++ ": " ++ err), w1)
    | none =>
      let destinationMd5Hash := md5.Sum file.data
      if expectedHashSum = destinationMd5Hash then (.ok true, w1) else (.ok false, w1)

/-- The owner and group check that ends `fileShouldBeSynched` (lines 183 to 205). -/
def ownerOrGroupDiverges (c : UploadManager σ) (uploadedFile : UploadedFile) (w : World σ) :
    Except Error Bool × World σ :=
  if uploadedFile.DestinationFileOwner ≠ "" ∨ uploadedFile.DestinationFileGroup ≠ "" then
    match c.callFileOwnerOrGroupMatch uploadedFile.DestinationPath
        uploadedFile.DestinationFileOwner uploadedFile.DestinationFileGroup w with
    | (.error err, w1) => (.error err, w1)
    | (.ok fileOwnerMatch, w1) =>
      if !fileOwnerMatch then (.ok true, w1) else (.ok false, w1)
  else (.ok false, w)

/-- Go `UploadManager.fileShouldBeSynched`. -/
def fileShouldBeSynched (c : UploadManager σ) (uploadedFile : UploadedFile) (w : World σ) :
    Except Error Bool × World σ :=
  if !uploadedFile.Sync then (.ok false, w)
  else
    match c.hashSumMatch uploadedFile.DestinationPath uploadedFile.Md5Checksum w with
    | (.error err, w1) => (.error err, w1)
    | (.ok hashSumMatch, w1) =>
      if !hashSumMatch then (.ok true, w1)
      else if uploadedFile.DestinationFileMode > 0 then
        match c.callFileModeMatch uploadedFile.DestinationPath
            uploadedFile.DestinationFileMode w1 with
        | (.error err, w2) => (.error err, w2)
        | (.ok fileModeMatch, w2) =>
          if !fileModeMatch then (.ok true, w2)
          else c.ownerOrGroupDiverges uploadedFile w2
      else c.ownerOrGroupDiverges uploadedFile w1

/-- Go `UploadManager.chownFile`. -/
def chownFile (c : UploadManager σ) (filePath owner group : String) (w : World σ) :
    Option Error × World σ :=
  if owner = "" ∧ group = "" then (none, w)
  else c.callChangeOwner filePath owner group w

/-- Go `UploadManager.chmodFile`. -/
def chmodFile (c : UploadManager σ) (path : String) (mode : Nat) (w : World σ) :
    Option Error × World σ :=
  if mode = 0 then (none, w)
  else c.callChangeMode path mode w

/-- Go `UploadManager.prepareDestinationDir`. -/
def prepareDestinationDir (c : UploadManager σ) (destinationPath : String) (mode : Nat)
    (w : World σ) : Option Error × World σ :=
  let destinationDir := filepath.Dir destinationPath
  let mode := if mode = 0 then c.DefaultMode else mode
  match c.callCreateDirIfNotExists destinationDir mode w with
  | (.error err, w1) => (some err, w1)
  | (.ok _, w1) => (none, w1)

/-- Go `UploadManager.copyFileToDestination`. -/
def copyFileToDestination (c : UploadManager σ) (tempFilePath : String)
    (uploadedFile : UploadedFile) (w : World σ) : Option Error × World σ :=
  match c.prepareDestinationDir uploadedFile.DestinationPath
      uploadedFile.DestinationFileMode w with
  | (some err, w1) => (some err, w1)
  | (none, w1) =>
    match c.callExist uploadedFile.DestinationPath w1 with
    | (.error err, w2) => (some err, w2)
    | (.ok destinationFileExists, w2) =>
      let removed : Option Error × World σ :=
        if destinationFileExists then c.callRemove uploadedFile.DestinationPath w2
        else (none, w2)
      match removed with
      | (some err, w3) => (some err, w3)
      | (none, w3) =>
        match c.callRename tempFilePath uploadedFile.DestinationPath w3 with
        | (some err, w4) => (some err, w4)
        | (none, w4) => (none, w4)

/-- Go `UploadManager.copyFileToTempLocation`.  The result is the pair
`(bytesCopied, tempFilePath)`; on an error the Go function also returns a path, which its
caller discards. -/
def copyFileToTempLocation (c : UploadManager σ) (remoteFilePath : String)
    (targetFileMode : Nat) (expectedMd5Checksum : Bytes) (w : World σ) :
    Except Error (Int × String) × World σ :=
  let tempFileName := filepath.Base remoteFilePath
  let targetFileMode := if targetFileMode = 0 then c.DefaultMode else targetFileMode
  match c.callCreateDirIfNotExists c.GetUploadDir targetFileMode w with
  | (.error err, w1) => (.error err, w1)
  | (.ok _, w1) =>
    let tempFilePath := filepath.Join c.GetUploadDir tempFileName
    match c.callExist tempFilePath w1 with
    | (.error err, w2) => (.error err, w2)
    | (.ok tempFileExists, w2) =>
      let removed : Option Error × World σ :=
        if tempFileExists then c.callRemove tempFilePath w2 else (none, w2)
      match removed with
      | (some err, w3) => (.error err, w3)
      | (none, w3) =>
        match c.callSourceOpen remoteFilePath w3 with
        | (.error err, w4) => (.error err, w4)
        | (.ok remoteFile, w4) =>
          match c.callCreateFile tempFilePath remoteFile w4 with
          | (.error err, w5) => (.error err, c.callSourceClose remoteFilePath w5)
          | (.ok (copiedBytes, md5Checksum), w5) =>
            if md5Checksum ≠ expectedMd5Checksum then
              let w6 := (c.callRemove tempFilePath w5).2
              (.error ("md5 check failed: checksum from server " ++ hex expectedMd5Checksum
                  ++ " doesn\x27t equal the calculated checksum " ++ hex md5Checksum),
                c.callSourceClose remoteFilePath w6)
            else (.ok (copiedBytes, tempFilePath), c.callSourceClose remoteFilePath w5)

/-- Go `UploadManager.handleWritingFile`. -/
def handleWritingFile (c : UploadManager σ) (uploadedFile : UploadedFile) (w : World σ) :
    Except Error UploadResponse × World σ :=
  match c.copyFileToTempLocation uploadedFile.SourceFilePath
      uploadedFile.DestinationFileMode uploadedFile.Md5Checksum w with
  | (.error err, w1) => (.error err, w1)
  | (.ok (copiedBytes, tempFilePath), w1) =>
    let msgParts : List String := []
    let r2 := c.chmodFile tempFilePath uploadedFile.DestinationFileMode w1
    let msgParts :=
      match r2.1 with
      | some err => msgParts ++ ["chmod failed: " ++ err]
      | none => msgParts
    let r3 := c.chownFile tempFilePath uploadedFile.DestinationFileOwner
      uploadedFile.DestinationFileGroup r2.2
    let msgParts :=
      match r3.1 with
      | some err => msgParts ++ ["chown of " ++ tempFilePath ++ " failed: " ++ err]
      | none => msgParts
    match c.copyFileToDestination tempFilePath uploadedFile r3.2 with
    | (some err, w4) => (.error err, w4)
    | (none, w4) =>
      let msgParts := msgParts ++
        ["file successfully copied to destination " ++ uploadedFile.DestinationPath]
      let message := stringsJoin msgParts "."
      (.ok { UploadResponseShort :=
               { ID := uploadedFile.ID
                 Filepath := uploadedFile.DestinationPath
                 SizeBytes := copiedBytes }
             Status := "success"
             Message := message }, w4)

/-- Go `UploadManager.HandleUploadRequest`. -/
def HandleUploadRequest (c : UploadManager σ) (reqPayload : Bytes) (w : World σ) :
    Except Error UploadResponse × World σ :=
  match c.getUploadedFile reqPayload with
  | .error err => (.error err, w)
  | .ok uploadedFile =>
    match c.callExist uploadedFile.DestinationPath w with
    | (.error err, w1) => (.error err, w1)
    | (.ok destinationFileExists, w1) =>
      if !destinationFileExists || uploadedFile.ForceWrite then
        c.handleWritingFile uploadedFile w1
      else
        match c.fileShouldBeSynched uploadedFile w1 with
        | (.error err, w2) => (.error err, w2)
        | (.ok fileShouldBeSynched, w2) =>
          if fileShouldBeSynched then c.handleWritingFile uploadedFile w2
          else
            let msg := "file " ++ uploadedFile.DestinationPath
              ++ " already exists, should not be synched or overwritten with force"
            (.ok { UploadResponseShort :=
                     { ID := uploadedFile.ID
                       Filepath := uploadedFile.DestinationPath
                       SizeBytes := 0 }
                   Message := msg
                   Status := "ignored" }, w2)

end UploadManager

/-- The world in which `HandleUploadRequest` enters `handleWritingFile` for the validated
request `uploadedFile`, if it does (lines 116 to 132): after the existence query when the
destination is absent or `ForceWrite` is set, after the divergence check when that check
says the file should be synched. -/
def UploadManager.writePathEntry {σ : Type} (c : UploadManager σ) (uploadedFile : UploadedFile)
    (w : World σ) : Option (World σ) :=
  match c.callExist uploadedFile.DestinationPath w with
  | (.error _, _) => none
  | (.ok destinationFileExists, w1) =>
    if !destinationFileExists || uploadedFile.ForceWrite then some w1
    else
      match c.fileShouldBeSynched uploadedFile w1 with
      | (.ok true, w2) => some w2
      | _ => none

/-- Go `SftpSession`: the `Close` methods of its two fields, over a state `σ` of the
resources they release. -/
structure SftpSession (σ : Type) where
  RemoveFileDataClose : σ → Option Error × σ
  SftpClClose : σ → Option Error × σ

/-- Go `SftpSession.Close`. -/
def SftpSession.Close {σ : Type} (ss : SftpSession σ) (s : σ) : Option Error × σ :=
  let errs : List String := []
  let r1 := ss.RemoveFileDataClose s
  let errs := match r1.1 with
    | some err => errs ++ [err]
    | none => errs
  let r2 := ss.SftpClClose r1.2
  let errs := match r2.1 with
    | some err => errs ++ [err]
    | none => errs
  if errs.length = 0 then (none, r2.2)
  else (some (stringsJoin errs ", "), r2.2)

/-! ## An in-memory filesystem -/

/-- Modelled from the spec: a file or directory of the in-memory filesystem that stands
for the `files.FileAPI` implementation, which is not part of these sources. -/
structure Node where
  isDir : Bool
  content : Bytes
  mode : Nat
  owner : String
  group : String
  deriving DecidableEq, Repr

/-- Modelled from the spec: the state of the in-memory filesystem, the nodes by path. -/
abbrev MemFS := List (String × Node)

namespace MemFS

/-- The node at a path. -/
def lookup (p : String) : MemFS → Option Node
  | [] => none
  | (q, n) :: rest => if q = p then some n else lookup p rest

/-- The filesystem without the node at a path. -/
def erase (p : String) : MemFS → MemFS
  | [] => []
  | (q, n) :: rest => if q = p then erase p rest else (q, n) :: erase p rest

/-- The filesystem with the node at a path replaced. -/
def insert (p : String) (n : Node) (fs : MemFS) : MemFS :=
  (p, n) :: erase p fs

/-- The bytes of the regular file at a path. -/
def content (fs : MemFS) (p : String) : Option Bytes :=
  match lookup p fs with
  | some n => if n.isDir then none else some n.content
  | none => none

end MemFS

/-- Modelled from the spec: the Filesystem Capability Provider of section 4.2 (the
`files.FileAPI` implementation is not part of these sources) over `MemFS`.  `Exist` is false
for a missing path, `CreateFile` copies the stream to the path and reports byte count and
MD5 digest and leaves the state alone when the stream fails, `CreateDirIfNotExists` reports
whether it created the directory, `Remove` and `Rename` fail on a missing path, and the
comparison helpers are false for a missing path. -/
def memAPI : FileAPI MemFS where
  Exist := fun p fs => .ok (fs.lookup p).isSome
  Open := fun p fs =>
    match fs.lookup p with
    | none => .error ("open " ++ p ++ ": no such file or directory")
    | some n =>
      if n.isDir then .ok ⟨[], some ("read " ++ p ++ ": is a directory"), none⟩
      else .ok ⟨n.content, none, none⟩
  FileModeMatch := fun p mode fs =>
    match fs.lookup p with
    | none => .ok false
    | some n => .ok (n.mode == mode)
  FileOwnerOrGroupMatch := fun p owner group fs =>
    match fs.lookup p with
    | none => .ok false
    | some n => .ok ((owner == "" || n.owner == owner) && (group == "" || n.group == group))
  CreateDirIfNotExists := fun p mode fs =>
    match fs.lookup p with
    | some _ => (.ok false, fs)
    | none => (.ok true, fs.insert p ⟨true, [], mode, "", ""⟩)
  CreateFile := fun p src fs =>
    match src.readErr with
    | some err => (.error err, fs)
    | none =>
      match fs.lookup p with
      | some ⟨true, _, _, _, _⟩ => (.error ("open " ++ p ++ ": is a directory"), fs)
      | _ => (.ok (src.data.length, md5.Sum src.data), fs.insert p ⟨false, src.data, 0o644, "", ""⟩)
  ChangeMode := fun p mode fs =>
    match fs.lookup p with
    | none => (some ("chmod " ++ p ++ ": no such file or directory"), fs)
    | some n => (none, fs.insert p { n with mode := mode })
  ChangeOwner := fun p owner group fs =>
    match fs.lookup p with
    | none => (some ("chown " ++ p ++ ": no such file or directory"), fs)
    | some n =>
      (none, fs.insert p { n with owner := if owner = "" then n.owner else owner
                                  group := if group = "" then n.group else group })
  Remove := fun p fs =>
    match fs.lookup p with
    | none => (some ("remove " ++ p ++ ": no such file or directory"), fs)
    | some _ => (none, fs.erase p)
  Rename := fun oldPath newPath fs =>
    match fs.lookup oldPath with
    | none => (some ("rename " ++ oldPath ++ " " ++ newPath ++ ": no such file or directory"), fs)
    | some n => (none, (fs.erase oldPath).insert newPath n)

/-- The in-memory filesystem on which removing always fails. -/
def memAPIRemoveFails : FileAPI MemFS :=
  { memAPI with
    Remove := fun p fs => (some ("remove " ++ p ++ ": operation not permitted"), fs) }

/-- The in-memory filesystem on which changing mode and owner is not supported. -/
def memAPIMetadataFails : FileAPI MemFS :=
  { memAPI with
    ChangeMode := fun p _ fs => (some ("chmod " ++ p ++ ": not supported"), fs)
    ChangeOwner := fun p _ _ fs => (some ("chown " ++ p ++ ": not supported"), fs) }

/-- A payload decoder for examples: every payload decodes to the request `req`. -/
def fixedRequest (req : UploadedFile) : Bytes → Except Error UploadedFile :=
  fun _ => .ok req

/-- The manager of the examples: upload directory `/tmp/up`, a remote side that serves
`remote` for every path. -/
def exampleManager (api : FileAPI MemFS) (remote : Except Error ReadCloser)
    (req : UploadedFile) : UploadManager MemFS where
  FilesAPI := api
  DefaultMode := 0o764
  GetUploadDir := "/tmp/up"
  SourceFileProviderOpen := fun _ => remote
  getUploadedFile := fixedRequest req

/-- The bytes of `hello`. -/
def helloBytes : Bytes := [104, 101, 108, 108, 111]

/-- The bytes of `old`. -/
def oldBytes : Bytes := [111, 108, 100]

/-- A request to copy `/remote/f.txt` to `/data/f.txt`, expecting the digest of `hello`. -/
def helloRequest : UploadedFile where
  ID := "req-1"
  SourceFilePath := "/remote/f.txt"
  DestinationPath := "/data/f.txt"
  DestinationFileMode := 0
  DestinationFileOwner := ""
  DestinationFileGroup := ""
  ForceWrite := false
  Sync := false
  Md5Checksum := md5.Sum helloBytes

/-- A regular file with the given bytes. -/
def fileNode (content : Bytes) : Node :=
  ⟨false, content, 0o644, "", ""⟩

/-- The request `helloRequest` with the sync flag set. -/
def syncRequest : UploadedFile :=
  { helloRequest with Sync := true }

/-- A remote stream that yields the bytes of `hello`. -/
def helloStream : ReadCloser := ⟨helloBytes, none, none⟩

/-- A filesystem whose only node is the file `/data/f.txt` holding `old`. -/
def oldDestination : World MemFS := ⟨[("/data/f.txt", fileNode oldBytes)], []⟩

/-- The empty filesystem. -/
def emptyWorld : World MemFS := ⟨[], []⟩

/-- The example manager over the in-memory filesystem, serving `hello`, for `syncRequest`. -/
def syncManager : UploadManager MemFS :=
  exampleManager memAPI (.ok helloStream) syncRequest

/-- The example manager over the in-memory filesystem, serving `hello`, for `helloRequest`. -/
def helloManager : UploadManager MemFS :=
  exampleManager memAPI (.ok helloStream) helloRequest

/-- The example manager for `helloRequest` whose remote side cannot be opened. -/
def offlineManager : UploadManager MemFS :=
  exampleManager memAPI (.error "sftp: connection lost") helloRequest

/-- A request with a target mode, owner and group. -/
def metadataRequest : UploadedFile :=
  { helloRequest with
    DestinationFileMode := 0o600
    DestinationFileOwner := "alice"
    DestinationFileGroup := "staff" }

/-- The example manager for `metadataRequest` on a filesystem that does not support
changing mode and owner. -/
def metadataManager : UploadManager MemFS :=
  exampleManager memAPIMetadataFails (.ok helloStream) metadataRequest

/-- The bytes of `hellp`, a corrupted transfer of `hello`. -/
def hellpBytes : Bytes := [104, 101, 108, 108, 112]

/-- A remote stream that yields the bytes of `hellp`. -/
def corruptStream : ReadCloser := ⟨hellpBytes, none, none⟩

/-- The example manager for `helloRequest` whose remote side delivers `hellp`, so that the
digest measured while staging differs from the expected one. -/
def corruptManager : UploadManager MemFS :=
  exampleManager memAPI (.ok corruptStream) helloRequest

/-- The manager `corruptManager` on the filesystem on which removing always fails. -/
def corruptStuckManager : UploadManager MemFS :=
  exampleManager memAPIRemoveFails (.ok corruptStream) helloRequest

/-- A forced request whose destination is the path its staging artifact gets: the upload
directory `/tmp/up` joined with the base name `f.txt` of the remote source. -/
def aliasRequest : UploadedFile :=
  { helloRequest with
    DestinationPath := "/tmp/up/f.txt"
    ForceWrite := true }

/-- The example manager for `aliasRequest` whose remote side delivers `hellp`. -/
def aliasManager : UploadManager MemFS :=
  exampleManager memAPI (.ok corruptStream) aliasRequest

/-- A filesystem with the upload directory and the file `/tmp/up/f.txt` holding `old`. -/
def aliasWorld : World MemFS :=
  ⟨[("/tmp/up/f.txt", fileNode oldBytes), ("/tmp/up", ⟨true, [], 0o764, "", ""⟩)], []⟩

/-- What the write path relies on from a filesystem, stated with `content s p`, the bytes
of the regular file at `p` in state `s`: a successful `CreateFile` puts the bytes of the
stream at its path and reports their number; `ChangeMode`, `ChangeOwner` and
`CreateDirIfNotExists` change no file content; a successful `Remove` leaves nothing at its
path and no other content changed; a successful `Rename` had a source to move, puts the
content of the source at the target, and the target exists afterwards. -/
structure ContentLaws {σ : Type} (api : FileAPI σ) (content : σ → String → Option Bytes) :
    Prop where
  createFile : ∀ p src s n d s1, api.CreateFile p src s = (.ok (n, d), s1) →
    content s1 p = some src.data ∧ n = src.data.length
  changeMode : ∀ p m s q, content (api.ChangeMode p m s).2 q = content s q
  changeOwner : ∀ p o g s q, content (api.ChangeOwner p o g s).2 q = content s q
  createDir : ∀ p m s q, content (api.CreateDirIfNotExists p m s).2 q = content s q
  remove : ∀ p s s1, api.Remove p s = (none, s1) →
    api.Exist p s1 = .ok false ∧ ∀ q, q ≠ p → content s1 q = content s q
  rename : ∀ p q s s1, api.Rename p q s = (none, s1) →
    api.Exist p s = .ok true ∧ content s1 q = content s p ∧ api.Exist q s1 = .ok true

/-- The calls recorded between the worlds `w` and `w1` all satisfy `P`. -/
def TraceExt {σ : Type} (P : Call → Prop) (w w1 : World σ) : Prop :=
  ∃ l, w1.trace = w.trace ++ l ∧ ∀ k ∈ l, P k

/-! ## Recipients column of the notification repository (`repository.go`) -/

/-- The pieces of Go `strings.Split` for a non-empty separator: the text is cut at the
leftmost occurrences of `sep` that do not overlap.  `skip` counts the characters of a
separator still to be passed over, `cur` holds the current piece in reverse. -/
def splitAux (sep : List Char) : Nat → List Char → List Char → List (List Char)
  | _, cur, [] => [cur.reverse]
  | skip + 1, cur, _ :: rest => splitAux sep skip cur rest
  | 0, cur, c :: rest =>
    if sep.isPrefixOf (c :: rest) then cur.reverse :: splitAux sep (sep.length - 1) [] rest
    else splitAux sep 0 (c :: cur) rest

/-- Go `strings.Split`: with an empty separator the text is cut after every character. -/
def stringsSplit (s sep : String) : List String :=
  if sep.data = [] then s.data.map fun c => String.mk [c]
  else (splitAux sep.data 0 [] s.data).map String.mk

namespace sqlite

/-- Go constant `RecipientsSeparator`. -/
def RecipientsSeparator : String := "@|@"

/-- The `Recipients` field of the row that `repository.Create` inserts (line 75). -/
def createRecipients (recipients : List String) : String :=
  stringsJoin recipients RecipientsSeparator

/-- The recipients that `repository.Details` reads from the stored column (lines 118 to
121); the nil slice is the empty list.  A Go string has bytes exactly when it has
characters. -/
def detailsRecipients (stored : String) : List String :=
  if stored.length > 0 then stringsSplit stored RecipientsSeparator else []

end sqlite

/-! ## `SSHFileProvider` -/

/-- Go `SSHFileProvider`: its SSH connection, seen through the functions of package `sftp`
that `Open` and the returned session call on it, over a state `σ` of the connection and the
resources held on it.  `κ` are the SFTP clients, `φ` the remote files. -/
structure SSHFileProvider (σ κ φ : Type) where
  NewClient : σ → Except Error κ × σ
  ClientOpen : κ → String → σ → Except Error φ × σ
  ClientClose : κ → σ → Option Error × σ
  FileClose : φ → σ → Option Error × σ

/-- Go `SSHFileProvider.Open`.  `ssh.NewClient` only wraps the connection and cannot fail.
The result is the `SftpSession` of the remote file and the client. -/
def SSHFileProvider.Open {σ κ φ : Type} (sfp : SSHFileProvider σ κ φ) (path : String)
    (s : σ) : Except Error (SftpSession σ) × σ :=
  match sfp.NewClient s with
  | (.error err, s1) =>
    (.error ("failed to establish sftp connection to the server: " ++ err), s1)
  | (.ok sftpCl, s1) =>
    match sfp.ClientOpen sftpCl path s1 with
    | (.error err, s2) => (.error err, s2)
    | (.ok sftpFile, s2) =>
      (.ok { RemoveFileDataClose := sfp.FileClose sftpFile
             SftpClClose := sfp.ClientClose sftpCl }, s2)

/-- The resources held on an example connection: the SFTP clients and remote files that
are open, and the next identifier to hand out. -/
structure SftpState where
  openClients : List Nat
  openFiles : List Nat
  next : Nat
  deriving DecidableEq, Repr

/-- An example SFTP server that has the remote files `files`: establishing a client always
works, opening a file works exactly for the files it has, closing releases the resource. -/
def exampleSftp (files : List String) : SSHFileProvider SftpState Nat Nat where
  NewClient := fun s =>
    (.ok s.next, { s with openClients := s.next :: s.openClients, next := s.next + 1 })
  ClientOpen := fun _ path s =>
    if path ∈ files then
      (.ok s.next, { s with openFiles := s.next :: s.openFiles, next := s.next + 1 })
    else (.error "file does not exist", s)
  ClientClose := fun k s => (none, { s with openClients := s.openClients.erase k })
  FileClose := fun f s => (none, { s with openFiles := s.openFiles.erase f })

/-- The in-memory filesystem on which renaming fails, as it does across devices. -/
def memAPIRenameFails : FileAPI MemFS :=
  { memAPI with
    Rename := fun oldPath newPath fs =>
      (some ("rename " ++ oldPath ++ " " ++ newPath ++ ": invalid cross-device link"), fs) }

/-- The example manager for `helloRequest`, serving `hello`, on the filesystem on which
renaming fails. -/
def crossDeviceManager : UploadManager MemFS :=
  exampleManager memAPIRenameFails (.ok helloStream) helloRequest

/-! ## Classes of calls and the laws of metadata -/

/-- Whether a call is one `HandleUploadRequest` makes before the write path: the existence
query and the queries of the divergence check. -/
def Call.queryCall : Call → Bool
  | .Exist _ => true
  | .Open _ => true
  | .FileModeMatch _ _ => true
  | .FileOwnerOrGroupMatch _ _ _ => true
  | _ => false

/-- Whether a call is one `copyFileToTempLocation` makes. -/
def Call.stagingCall : Call → Bool
  | .CreateDirIfNotExists _ _ => true
  | .Exist _ => true
  | .Remove _ => true
  | .SourceOpen _ => true
  | .CreateFile _ => true
  | .SourceClose _ => true
  | _ => false

/-- Whether a call is one `copyFileToDestination` makes. -/
def Call.installCall : Call → Bool
  | .CreateDirIfNotExists _ _ => true
  | .Exist _ => true
  | .Remove _ => true
  | .Rename _ _ => true
  | _ => false

/-- Whether a call changes metadata: `ChangeMode` or `ChangeOwner`. -/
def Call.metadataCall : Call → Bool
  | .ChangeMode _ _ => true
  | .ChangeOwner _ _ _ => true
  | _ => false

/-- Whether a call is a `Rename`. -/
def Call.isRename : Call → Bool
  | .Rename _ _ => true
  | _ => false

/-- What the write path relies on from a filesystem for metadata, stated with the
comparison helpers of the interface: a successful `ChangeMode` or `ChangeOwner` makes the
matching helper true; `ChangeOwner` and `CreateDirIfNotExists` keep a match that holds; a
successful `Remove` leaves nothing at its path and keeps the matches of other paths; a
successful `Rename` had a source to move and carries the matches of the source to the
target. -/
structure MetadataLaws {σ : Type} (api : FileAPI σ) : Prop where
  changeMode : ∀ p m s s1, api.ChangeMode p m s = (none, s1) →
    api.FileModeMatch p m s1 = .ok true
  changeOwner : ∀ p o g s s1, api.ChangeOwner p o g s = (none, s1) →
    api.FileOwnerOrGroupMatch p o g s1 = .ok true
  changeOwner_mode : ∀ p o g s q m, api.FileModeMatch q m s = .ok true →
    api.FileModeMatch q m (api.ChangeOwner p o g s).2 = .ok true
  createDir_mode : ∀ p m s q m1, api.FileModeMatch q m1 s = .ok true →
    api.FileModeMatch q m1 (api.CreateDirIfNotExists p m s).2 = .ok true
  createDir_owner : ∀ p m s q o g, api.FileOwnerOrGroupMatch q o g s = .ok true →
    api.FileOwnerOrGroupMatch q o g (api.CreateDirIfNotExists p m s).2 = .ok true
  remove : ∀ p s s1, api.Remove p s = (none, s1) →
    api.Exist p s1 = .ok false ∧
    (∀ q m, q ≠ p → api.FileModeMatch q m s = .ok true →
      api.FileModeMatch q m s1 = .ok true) ∧
    (∀ q o g, q ≠ p → api.FileOwnerOrGroupMatch q o g s = .ok true →
      api.FileOwnerOrGroupMatch q o g s1 = .ok true)
  rename : ∀ p q s s1, api.Rename p q s = (none, s1) →
    api.Exist p s = .ok true ∧
    (∀ m, api.FileModeMatch p m s = .ok true → api.FileModeMatch q m s1 = .ok true) ∧
    (∀ o g, api.FileOwnerOrGroupMatch p o g s = .ok true →
      api.FileOwnerOrGroupMatch q o g s1 = .ok true)

/-- The example manager for `metadataRequest`, serving `hello`, on the in-memory
filesystem. -/
def ownedManager : UploadManager MemFS :=
  exampleManager memAPI (.ok helloStream) metadataRequest

/-- The example manager for `metadataRequest` whose remote side cannot be opened. -/
def offlineMetadataManager : UploadManager MemFS :=
  exampleManager memAPI (.error "sftp: connection lost") metadataRequest

/-- A forced request with a target mode whose destination is its staging path. -/
def aliasModeRequest : UploadedFile :=
  { aliasRequest with DestinationFileMode := 0o600 }

/-- The example manager for `aliasModeRequest`, serving `hello`. -/
def aliasModeManager : UploadManager MemFS :=
  exampleManager memAPI (.ok helloStream) aliasModeRequest

/-! ## Theorems -/

namespace MemFS

theorem lookup_erase_self (p : String) (fs : MemFS) : lookup p (erase p fs) = none := by
  induction fs with
  | nil => rfl
  | cons x rest ih =>
    obtain ⟨q, n⟩ := x
    by_cases h : q = p
    · simp [erase, h, ih]
    · simp [erase, lookup, h, ih]

theorem lookup_erase_ne {p q : String} (h : q ≠ p) (fs : MemFS) :
    lookup q (erase p fs) = lookup q fs := by
  induction fs with
  | nil => rfl
  | cons x rest ih =>
    obtain ⟨r, n⟩ := x
    by_cases hr : r = p
    · have hrq : ¬ r = q := fun e => h (e.symm.trans hr)
      rw [erase, if_pos hr, ih, lookup, if_neg hrq]
    · rw [erase, if_neg hr, lookup, lookup, ih]

theorem lookup_insert_self (p : String) (n : Node) (fs : MemFS) :
    lookup p (insert p n fs) = some n := by
  simp [insert, lookup]

theorem lookup_insert_ne {p q : String} (h : q ≠ p) (n : Node) (fs : MemFS) :
    lookup q (insert p n fs) = lookup q fs := by
  have hpq : ¬ p = q := fun e => h e.symm
  simp [insert, lookup, hpq, lookup_erase_ne h]

end MemFS

theorem memAPI_exist (p : String) (fs : MemFS) :
    memAPI.Exist p fs = .ok (fs.lookup p).isSome := rfl

theorem memAPI_remove {p : String} {s s1 : MemFS} (h : memAPI.Remove p s = (none, s1)) :
    s1 = s.erase p := by
  simp only [memAPI] at h
  split at h
  · simp at h
  · simp only [Prod.mk.injEq, true_and] at h
    exact h.symm

theorem memAPI_rename {p q : String} {s s1 : MemFS} (h : memAPI.Rename p q s = (none, s1)) :
    ∃ n, s.lookup p = some n ∧ s1 = (s.erase p).insert q n := by
  simp only [memAPI] at h
  split at h
  · simp at h
  · rename_i n hn
    simp only [Prod.mk.injEq, true_and] at h
    exact ⟨n, hn, h.symm⟩

/-- The in-memory filesystem satisfies the laws the write path relies on. -/
theorem memAPI_contentLaws : ContentLaws memAPI MemFS.content where
  createFile := by
    intro p src s n d s1 h
    simp only [memAPI] at h
    split at h
    · simp at h
    · split at h
      · simp at h
      · simp only [Prod.mk.injEq, Except.ok.injEq] at h
        obtain ⟨⟨hn, _⟩, hs⟩ := h
        subst hs
        exact ⟨by simp [MemFS.content, MemFS.lookup_insert_self], hn.symm⟩
  changeMode := by
    intro p m s q
    simp only [memAPI]
    split
    · rfl
    · rename_i n hn
      by_cases hq : q = p
      · subst hq
        simp [MemFS.content, MemFS.lookup_insert_self, hn]
      · simp [MemFS.content, MemFS.lookup_insert_ne hq]
  changeOwner := by
    intro p o g s q
    simp only [memAPI]
    split
    · rfl
    · rename_i n hn
      by_cases hq : q = p
      · subst hq
        simp [MemFS.content, MemFS.lookup_insert_self, hn]
      · simp [MemFS.content, MemFS.lookup_insert_ne hq]
  createDir := by
    intro p m s q
    simp only [memAPI]
    split
    · rfl
    · rename_i hn
      by_cases hq : q = p
      · subst hq
        simp [MemFS.content, MemFS.lookup_insert_self, hn]
      · simp [MemFS.content, MemFS.lookup_insert_ne hq]
  remove := by
    intro p s s1 h
    have hs := memAPI_remove h
    subst hs
    refine ⟨by simp [memAPI_exist, MemFS.lookup_erase_self], ?_⟩
    intro q hq
    simp [MemFS.content, MemFS.lookup_erase_ne hq]
  rename := by
    intro p q s s1 h
    obtain ⟨n, hn, hs⟩ := memAPI_rename h
    subst hs
    refine ⟨by simp [memAPI_exist, hn], ?_, by simp [memAPI_exist, MemFS.lookup_insert_self]⟩
    simp [MemFS.content, MemFS.lookup_insert_self, hn]

namespace UploadManager

variable {σ : Type}

/-- A response of the write path has status `success`. -/
theorem handleWritingFile_status (c : UploadManager σ) (req : UploadedFile) (w w1 : World σ)
    (resp : UploadResponse) (h : c.handleWritingFile req w = (.ok resp, w1)) :
    resp.Status = "success" := by
  unfold handleWritingFile at h
  split at h
  · simp at h
  · dsimp only at h
    split at h
    · simp at h
    · simp only [Prod.mk.injEq, Except.ok.injEq] at h
      rw [← h.1]

/-- When `writePathEntry` gives a world, `HandleUploadRequest` is `handleWritingFile` run
from that world. -/
theorem HandleUploadRequest_of_writePathEntry (c : UploadManager σ) (payload : Bytes)
    (req : UploadedFile) (w w0 : World σ) (hreq : c.getUploadedFile payload = .ok req)
    (h : c.writePathEntry req w = some w0) :
    c.HandleUploadRequest payload w = c.handleWritingFile req w0 := by
  unfold writePathEntry at h
  unfold HandleUploadRequest
  rw [hreq]
  dsimp only
  split at h
  · simp at h
  · split at h
    · rename_i hcond
      simp only [Option.some.injEq] at h
      rw [if_pos hcond, h]
    · rename_i hcond
      rw [if_neg hcond]
      split at h
      · rename_i w2 hs
        simp only [Option.some.injEq] at h
        rw [hs, h]
        simp
      · simp at h

theorem traceExt_refl {P : Call → Prop} (w : World σ) : TraceExt P w w :=
  ⟨[], by simp, by simp⟩

theorem traceExt_trans {P : Call → Prop} {w w1 w2 : World σ} (h1 : TraceExt P w w1)
    (h2 : TraceExt P w1 w2) : TraceExt P w w2 := by
  obtain ⟨l1, e1, p1⟩ := h1
  obtain ⟨l2, e2, p2⟩ := h2
  refine ⟨l1 ++ l2, by rw [e2, e1, List.append_assoc], ?_⟩
  intro k hk
  rcases List.mem_append.mp hk with hk | hk
  · exact p1 k hk
  · exact p2 k hk

theorem traceExt_single {P : Call → Prop} {w w1 : World σ} (k : Call)
    (h : w1.trace = w.trace ++ [k]) (hP : P k) : TraceExt P w w1 :=
  ⟨[k], h, by simpa using hP⟩

/-- The calls of `copyFileToTempLocation` are none of the divergence queries. -/
theorem copyFileToTempLocation_trace (c : UploadManager σ) (remote : String) (mode : Nat)
    (expected : Bytes) (w : World σ) :
    TraceExt (fun k => k.divergenceQuery = false) w
      (c.copyFileToTempLocation remote mode expected w).2 := by
  unfold copyFileToTempLocation
  dsimp only
  rcases h1 : c.callCreateDirIfNotExists c.GetUploadDir
    (if mode = 0 then c.DefaultMode else mode) w with ⟨r1, w1⟩
  have t1 : TraceExt (fun k => k.divergenceQuery = false) w w1 :=
    traceExt_single (.CreateDirIfNotExists _ _) (congrArg (fun x => x.2.trace) h1).symm rfl
  cases r1 with
  | error e => exact t1
  | ok b1 =>
    dsimp only
    rcases h2 : c.callExist (filepath.Join c.GetUploadDir (filepath.Base remote)) w1
      with ⟨r2, w2⟩
    have t2 : TraceExt (fun k => k.divergenceQuery = false) w w2 :=
      traceExt_trans t1
        (traceExt_single (.Exist _) (congrArg (fun x => x.2.trace) h2).symm rfl)
    cases r2 with
    | error e => exact t2
    | ok b2 =>
      dsimp only
      have t3 : TraceExt (fun k => k.divergenceQuery = false) w
          (if b2 = true then
            c.callRemove (filepath.Join c.GetUploadDir (filepath.Base remote)) w2
           else (none, w2)).2 := by
        cases b2
        · exact t2
        · exact traceExt_trans t2 (traceExt_single (.Remove _) rfl rfl)
      rcases h3 : (if b2 = true then
            c.callRemove (filepath.Join c.GetUploadDir (filepath.Base remote)) w2
           else (none, w2)) with ⟨r3, w3⟩
      rw [h3] at t3
      cases r3 with
      | some e => exact t3
      | none =>
        dsimp only
        rcases h4 : c.callSourceOpen remote w3 with ⟨r4, w4⟩
        have t4 : TraceExt (fun k => k.divergenceQuery = false) w w4 :=
          traceExt_trans t3
            (traceExt_single (.SourceOpen _) (congrArg (fun x => x.2.trace) h4).symm rfl)
        cases r4 with
        | error e => exact t4
        | ok remoteFile =>
          dsimp only
          rcases h5 : c.callCreateFile (filepath.Join c.GetUploadDir (filepath.Base remote))
            remoteFile w4 with ⟨r5, w5⟩
          have t5 : TraceExt (fun k => k.divergenceQuery = false) w w5 :=
            traceExt_trans t4
              (traceExt_single (.CreateFile _) (congrArg (fun x => x.2.trace) h5).symm rfl)
          cases r5 with
          | error e => exact traceExt_trans t5 (traceExt_single (.SourceClose _) rfl rfl)
          | ok res =>
            obtain ⟨copiedBytes, md5Checksum⟩ := res
            dsimp only
            split
            · exact traceExt_trans (traceExt_trans t5 (traceExt_single (.Remove _) rfl rfl))
                (traceExt_single (.SourceClose _) rfl rfl)
            · exact traceExt_trans t5 (traceExt_single (.SourceClose _) rfl rfl)

/-- The calls of `copyFileToDestination` are none of the divergence queries. -/
theorem copyFileToDestination_trace (c : UploadManager σ) (tempFilePath : String)
    (req : UploadedFile) (w : World σ) :
    TraceExt (fun k => k.divergenceQuery = false) w
      (c.copyFileToDestination tempFilePath req w).2 := by
  unfold copyFileToDestination prepareDestinationDir
  dsimp only
  rcases h1 : c.callCreateDirIfNotExists (filepath.Dir req.DestinationPath)
    (if req.DestinationFileMode = 0 then c.DefaultMode else req.DestinationFileMode) w
    with ⟨r1, w1⟩
  have t1 : TraceExt (fun k => k.divergenceQuery = false) w w1 :=
    traceExt_single (.CreateDirIfNotExists _ _) (congrArg (fun x => x.2.trace) h1).symm rfl
  cases r1 with
  | error e => exact t1
  | ok b1 =>
    dsimp only
    rcases h2 : c.callExist req.DestinationPath w1 with ⟨r2, w2⟩
    have t2 : TraceExt (fun k => k.divergenceQuery = false) w w2 :=
      traceExt_trans t1
        (traceExt_single (.Exist _) (congrArg (fun x => x.2.trace) h2).symm rfl)
    cases r2 with
    | error e => exact t2
    | ok b2 =>
      dsimp only
      have t3 : TraceExt (fun k => k.divergenceQuery = false) w
          (if b2 = true then c.callRemove req.DestinationPath w2 else (none, w2)).2 := by
        cases b2
        · exact t2
        · exact traceExt_trans t2 (traceExt_single (.Remove _) rfl rfl)
      rcases h3 : (if b2 = true then c.callRemove req.DestinationPath w2 else (none, w2))
        with ⟨r3, w3⟩
      rw [h3] at t3
      cases r3 with
      | some e => exact t3
      | none =>
        dsimp only
        rcases h4 : c.callRename tempFilePath req.DestinationPath w3 with ⟨r4, w4⟩
        have t4 : TraceExt (fun k => k.divergenceQuery = false) w w4 :=
          traceExt_trans t3
            (traceExt_single (.Rename _ _) (congrArg (fun x => x.2.trace) h4).symm rfl)
        cases r4 with
        | some e => exact t4
        | none => exact t4

/-- The calls of `chmodFile` are none of the divergence queries. -/
theorem chmodFile_trace (c : UploadManager σ) (path : String) (mode : Nat) (w : World σ) :
    TraceExt (fun k => k.divergenceQuery = false) w (c.chmodFile path mode w).2 := by
  unfold chmodFile
  split
  · exact traceExt_refl w
  · exact traceExt_single (.ChangeMode _ _) rfl rfl

/-- The calls of `chownFile` are none of the divergence queries. -/
theorem chownFile_trace (c : UploadManager σ) (path owner group : String) (w : World σ) :
    TraceExt (fun k => k.divergenceQuery = false) w (c.chownFile path owner group w).2 := by
  unfold chownFile
  split
  · exact traceExt_refl w
  · exact traceExt_single (.ChangeOwner _ _ _) rfl rfl

/-- The calls of the write path are none of the divergence queries. -/
theorem handleWritingFile_trace (c : UploadManager σ) (req : UploadedFile) (w : World σ) :
    TraceExt (fun k => k.divergenceQuery = false) w (c.handleWritingFile req w).2 := by
  unfold handleWritingFile
  have t1 := c.copyFileToTempLocation_trace req.SourceFilePath req.DestinationFileMode
    req.Md5Checksum w
  rcases h1 : c.copyFileToTempLocation req.SourceFilePath req.DestinationFileMode
    req.Md5Checksum w with ⟨r1, w1⟩
  rw [h1] at t1
  cases r1 with
  | error e => exact t1
  | ok res =>
    obtain ⟨copiedBytes, tempFilePath⟩ := res
    dsimp only
    have t2 := traceExt_trans t1 (c.chmodFile_trace tempFilePath req.DestinationFileMode w1)
    have t3 := traceExt_trans t2 (c.chownFile_trace tempFilePath req.DestinationFileOwner
      req.DestinationFileGroup (c.chmodFile tempFilePath req.DestinationFileMode w1).2)
    have t4 := traceExt_trans t3 (c.copyFileToDestination_trace tempFilePath req
      (c.chownFile tempFilePath req.DestinationFileOwner req.DestinationFileGroup
        (c.chmodFile tempFilePath req.DestinationFileMode w1).2).2)
    split
    · rename_i h; rw [h] at t4; exact t4
    · rename_i h; rw [h] at t4; exact t4

/-- C2, as the code has it: for a validated request whose existence query answers that the
destination is absent, or whose force flag is set (whatever the sync flag), the call is
exactly the write path run after the existence query; the divergence check is not
evaluated (none of its queries is called), a response that is returned has status
`success`, never `ignored`; the write path can still end in an error. -/
theorem HandleUploadRequest_unconditional_write (c : UploadManager σ) (payload : Bytes)
    (req : UploadedFile) (w : World σ) (b : Bool)
    (hreq : c.getUploadedFile payload = .ok req)
    (hexist : c.FilesAPI.Exist req.DestinationPath w.fs = .ok b)
    (hcase : b = false ∨ req.ForceWrite = true) :
    c.HandleUploadRequest payload w
        = c.handleWritingFile req (w.log (.Exist req.DestinationPath)) ∧
      TraceExt (fun k => k.divergenceQuery = false) w (c.HandleUploadRequest payload w).2 ∧
      (∀ resp w1, c.HandleUploadRequest payload w = (.ok resp, w1) →
        resp.Status = "success" ∧ resp.Status ≠ "ignored") := by
  have hentry : c.writePathEntry req w = some (w.log (.Exist req.DestinationPath)) := by
    unfold writePathEntry callExist
    rw [hexist]
    rcases hcase with h | h <;> simp [h]
  have heq := c.HandleUploadRequest_of_writePathEntry payload req w _ hreq hentry
  refine ⟨heq, ?_, ?_⟩
  · rw [heq]
    exact traceExt_trans (traceExt_single (.Exist _) rfl rfl) (c.handleWritingFile_trace req _)
  · intro resp w1 h
    rw [heq] at h
    have hs := c.handleWritingFile_status req _ w1 resp h
    exact ⟨hs, by rw [hs]; decide⟩

/-- The response of the ignore path. -/
theorem HandleUploadRequest_ignore_path (c : UploadManager σ) (payload : Bytes)
    (req : UploadedFile) (w : World σ) (hreq : c.getUploadedFile payload = .ok req)
    (hexist : c.FilesAPI.Exist req.DestinationPath w.fs = .ok true)
    (hforce : req.ForceWrite = false) (hsync : req.Sync = false) :
    c.HandleUploadRequest payload w =
      (.ok ⟨⟨req.ID, req.DestinationPath, 0⟩, "file " ++ req.DestinationPath
        ++ " already exists, should not be synched or overwritten with force", "ignored"⟩,
        w.log (.Exist req.DestinationPath)) := by
  simp [HandleUploadRequest, hreq, callExist, hexist, hforce, fileShouldBeSynched, hsync]

/-- C3: a validated request whose destination exists, with force and sync unset, is
answered (without error) by an `ignored` response carrying the request identifier, the
destination path, a byte count of zero and a non-empty message; the only call made is the
existence query, so no mutating filesystem call and no remote open happen and the
filesystem state is the one before the call. -/
theorem HandleUploadRequest_ignored_when_no_sync (c : UploadManager σ) (payload : Bytes)
    (req : UploadedFile) (w : World σ) (hreq : c.getUploadedFile payload = .ok req)
    (hexist : c.FilesAPI.Exist req.DestinationPath w.fs = .ok true)
    (hforce : req.ForceWrite = false) (hsync : req.Sync = false) :
    ∃ resp w1, c.HandleUploadRequest payload w = (.ok resp, w1) ∧
      resp.Status = "ignored" ∧
      resp.UploadResponseShort.ID = req.ID ∧
      resp.UploadResponseShort.Filepath = req.DestinationPath ∧
      resp.UploadResponseShort.SizeBytes = 0 ∧
      resp.Message ≠ "" ∧
      w1.fs = w.fs ∧
      w1.trace = w.trace ++ [Call.Exist req.DestinationPath] ∧
      (∀ k ∈ w1.trace, k ∈ w.trace ∨ (k.mutating = false ∧ ∀ p, k ≠ Call.SourceOpen p)) := by
  refine ⟨⟨⟨req.ID, req.DestinationPath, 0⟩, "file " ++ req.DestinationPath
    ++ " already exists, should not be synched or overwritten with force", "ignored"⟩,
    w.log (.Exist req.DestinationPath), ?_, rfl, rfl, rfl, rfl, ?_, ?_, ?_, ?_⟩
  · exact c.HandleUploadRequest_ignore_path payload req w hreq hexist hforce hsync
  · intro h
    have hlen := congrArg String.length h
    simp [String.length_append] at hlen
    exact absurd hlen.1.1 (by decide)
  · rfl
  · rfl
  · intro k hk
    simp only [World.log, List.mem_append, List.mem_singleton] at hk
    rcases hk with hk | hk
    · exact Or.inl hk
    · subst hk
      exact Or.inr ⟨rfl, fun p => by simp⟩

/-- C1: for a validated request whose destination exists, with force unset and sync set,
when the filesystem queries raise no error, the call returns an `ignored` response exactly
when the MD5 digest of the destination equals the expected digest, the target mode is 0 or
`FileModeMatch` is true, and owner and group are both empty or `FileOwnerOrGroupMatch` is
true; in every other case the call is the write path, and a response it returns has status
`success`. -/
theorem HandleUploadRequest_sync_decision (c : UploadManager σ) (payload : Bytes)
    (req : UploadedFile) (w : World σ) (file : ReadCloser) (modeMatch ownerMatch : Bool)
    (hreq : c.getUploadedFile payload = .ok req)
    (hexist : c.FilesAPI.Exist req.DestinationPath w.fs = .ok true)
    (hforce : req.ForceWrite = false) (hsync : req.Sync = true)
    (hopen : c.FilesAPI.Open req.DestinationPath w.fs = .ok file)
    (hread : file.readErr = none)
    (hmode : c.FilesAPI.FileModeMatch req.DestinationPath req.DestinationFileMode w.fs
      = .ok modeMatch)
    (howner : c.FilesAPI.FileOwnerOrGroupMatch req.DestinationPath req.DestinationFileOwner
      req.DestinationFileGroup w.fs = .ok ownerMatch) :
    ((∃ resp w1, c.HandleUploadRequest payload w = (.ok resp, w1) ∧ resp.Status = "ignored") ↔
      (md5.Sum file.data = req.Md5Checksum ∧
        (req.DestinationFileMode = 0 ∨ modeMatch = true) ∧
        ((req.DestinationFileOwner = "" ∧ req.DestinationFileGroup = "") ∨
          ownerMatch = true))) ∧
    (¬ (md5.Sum file.data = req.Md5Checksum ∧
        (req.DestinationFileMode = 0 ∨ modeMatch = true) ∧
        ((req.DestinationFileOwner = "" ∧ req.DestinationFileGroup = "") ∨
          ownerMatch = true)) →
      ∃ w0, c.writePathEntry req w = some w0 ∧
        c.HandleUploadRequest payload w = c.handleWritingFile req w0 ∧
        ∀ resp w1, c.HandleUploadRequest payload w = (.ok resp, w1) →
          resp.Status = "success") := by
  -- the divergence check, evaluated under the hypotheses
  have hs1 : (c.fileShouldBeSynched req (w.log (.Exist req.DestinationPath))).1
      = .ok (decide ¬ (md5.Sum file.data = req.Md5Checksum ∧
        (req.DestinationFileMode = 0 ∨ modeMatch = true) ∧
        ((req.DestinationFileOwner = "" ∧ req.DestinationFileGroup = "") ∨
          ownerMatch = true))) := by
    unfold fileShouldBeSynched hashSumMatch ownerOrGroupDiverges callOpen callFileModeMatch
      callFileOwnerOrGroupMatch
    simp only [hsync, World.log, hopen, hread, hmode, howner]
    by_cases h1 : req.Md5Checksum = md5.Sum file.data
    · have h1b : md5.Sum file.data = req.Md5Checksum := h1.symm
      by_cases h2 : req.DestinationFileMode = 0
      · by_cases h3 : req.DestinationFileOwner = "" ∧ req.DestinationFileGroup = ""
        · simp [h1b, h2, h3]
        · have h3b : ¬ req.DestinationFileOwner = "" ∨ ¬ req.DestinationFileGroup = "" := by
            tauto
          cases ownerMatch <;> simp [h1b, h2, h3, h3b, howner]
      · cases modeMatch
        · simp [h1b, h2, hmode, Nat.pos_of_ne_zero h2]
        · by_cases h3 : req.DestinationFileOwner = "" ∧ req.DestinationFileGroup = ""
          · simp [h1b, h2, h3, hmode, Nat.pos_of_ne_zero h2]
          · have h3b : ¬ req.DestinationFileOwner = "" ∨ ¬ req.DestinationFileGroup = "" := by
              tauto
            cases ownerMatch <;> simp [h1b, h2, h3, h3b, howner, hmode, Nat.pos_of_ne_zero h2]
    · have h1b : ¬ md5.Sum file.data = req.Md5Checksum := fun h => h1 h.symm
      simp [h1, h1b]
  rcases hs : c.fileShouldBeSynched req (w.log (.Exist req.DestinationPath)) with ⟨r, w2⟩
  rw [hs] at hs1
  dsimp only at hs1
  subst hs1
  by_cases hcond : (md5.Sum file.data = req.Md5Checksum ∧
        (req.DestinationFileMode = 0 ∨ modeMatch = true) ∧
        ((req.DestinationFileOwner = "" ∧ req.DestinationFileGroup = "") ∨
          ownerMatch = true))
  · refine ⟨⟨fun _ => hcond, fun _ => ?_⟩, fun h => absurd hcond h⟩
    simp only [hcond, not_true_eq_false, decide_False] at hs
    refine ⟨⟨⟨req.ID, req.DestinationPath, 0⟩, "file " ++ req.DestinationPath
      ++ " already exists, should not be synched or overwritten with force", "ignored"⟩,
      w2, ?_, rfl⟩
    unfold HandleUploadRequest callExist
    simp only [hreq, hexist, hforce, hs]
    simp
  · have hentry : c.writePathEntry req w = some w2 := by
      unfold writePathEntry callExist
      simp only [hexist, hforce]
      simp only [hcond, not_false_eq_true, decide_True] at hs
      rw [hs]
      simp
    have heq := c.HandleUploadRequest_of_writePathEntry payload req w w2 hreq hentry
    have hsucc : ∀ resp w1, c.HandleUploadRequest payload w = (.ok resp, w1) →
        resp.Status = "success" := by
      intro resp w1 h
      rw [heq] at h
      exact c.handleWritingFile_status req _ w1 resp h
    refine ⟨⟨fun ⟨resp, w1, h, hst⟩ => ?_, fun h => absurd h hcond⟩,
      fun _ => ⟨w2, hentry, heq, hsucc⟩⟩
    have := hsucc resp w1 h
    rw [this] at hst
    exact absurd hst (by decide)

/-- C1 at a concrete input: the destination holds `old`, the request expects the digest of
`hello` with sync set, so the check diverges. -/
theorem HandleUploadRequest_sync_decision_witness :
    syncManager.getUploadedFile [] = .ok syncRequest ∧
    syncManager.FilesAPI.Exist syncRequest.DestinationPath oldDestination.fs = .ok true ∧
    syncRequest.ForceWrite = false ∧ syncRequest.Sync = true ∧
    syncManager.FilesAPI.Open syncRequest.DestinationPath oldDestination.fs
      = .ok ⟨oldBytes, none, none⟩ ∧
    ((∃ resp w1, syncManager.HandleUploadRequest [] oldDestination = (.ok resp, w1) ∧
        resp.Status = "ignored") ↔
      (md5.Sum oldBytes = syncRequest.Md5Checksum ∧
        (syncRequest.DestinationFileMode = 0 ∨ false = true) ∧
        ((syncRequest.DestinationFileOwner = "" ∧ syncRequest.DestinationFileGroup = "") ∨
          true = true))) :=
  ⟨rfl, rfl, rfl, rfl, rfl,
    (HandleUploadRequest_sync_decision syncManager [] syncRequest oldDestination
      ⟨oldBytes, none, none⟩ false true rfl rfl rfl rfl rfl rfl rfl rfl).1⟩

/-- C2 as stated fails: the destination is absent, yet the result is not `success` but the
error of the remote open. -/
theorem absent_destination_can_end_in_error :
    offlineManager.getUploadedFile [] = .ok helloRequest ∧
    offlineManager.FilesAPI.Exist helloRequest.DestinationPath emptyWorld.fs = .ok false ∧
    (offlineManager.HandleUploadRequest [] emptyWorld).1 = .error "sftp: connection lost" :=
  ⟨rfl, rfl, rfl⟩

/-- C2 at a concrete input: the destination is absent. -/
theorem HandleUploadRequest_unconditional_write_witness :
    helloManager.getUploadedFile [] = .ok helloRequest ∧
    helloManager.FilesAPI.Exist helloRequest.DestinationPath emptyWorld.fs = .ok false ∧
    helloManager.HandleUploadRequest [] emptyWorld
      = helloManager.handleWritingFile helloRequest
          (emptyWorld.log (.Exist helloRequest.DestinationPath)) :=
  ⟨rfl, rfl,
    (HandleUploadRequest_unconditional_write helloManager [] helloRequest emptyWorld false
      rfl rfl (Or.inl rfl)).1⟩

/-- C3 at a concrete input: the destination holds `old`, force and sync are unset. -/
theorem HandleUploadRequest_ignored_when_no_sync_witness :
    helloManager.getUploadedFile [] = .ok helloRequest ∧
    helloManager.FilesAPI.Exist helloRequest.DestinationPath oldDestination.fs = .ok true ∧
    helloRequest.ForceWrite = false ∧ helloRequest.Sync = false ∧
    (∃ resp w1, helloManager.HandleUploadRequest [] oldDestination = (.ok resp, w1) ∧
      resp.Status = "ignored" ∧
      resp.UploadResponseShort.ID = helloRequest.ID ∧
      resp.UploadResponseShort.Filepath = helloRequest.DestinationPath ∧
      resp.UploadResponseShort.SizeBytes = 0 ∧
      resp.Message ≠ "" ∧
      w1.fs = oldDestination.fs ∧
      w1.trace = oldDestination.trace ++ [Call.Exist helloRequest.DestinationPath] ∧
      (∀ k ∈ w1.trace,
        k ∈ oldDestination.trace ∨ (k.mutating = false ∧ ∀ p, k ≠ Call.SourceOpen p))) :=
  ⟨rfl, rfl, rfl, rfl,
    HandleUploadRequest_ignored_when_no_sync helloManager [] helloRequest oldDestination
      rfl rfl rfl rfl⟩

/-- What a successful `copyFileToTempLocation` has done: the staging path is the upload
directory joined with the base name of the remote path, the remote file was opened, and
`CreateFile` on the staging path reported the returned byte count and the expected digest
and left the filesystem in its final state. -/
theorem copyFileToTempLocation_ok (c : UploadManager σ) (remote : String) (mode : Nat)
    (expected : Bytes) (w w1 : World σ) (n : Int) (tmp : String)
    (h : c.copyFileToTempLocation remote mode expected w = (.ok (n, tmp), w1)) :
    tmp = filepath.Join c.GetUploadDir (filepath.Base remote) ∧
    ∃ rf s, c.SourceFileProviderOpen remote = .ok rf ∧
      c.FilesAPI.CreateFile tmp rf s = (.ok (n, expected), w1.fs) := by
  unfold copyFileToTempLocation at h
  dsimp only at h
  rcases h1 : c.callCreateDirIfNotExists c.GetUploadDir
    (if mode = 0 then c.DefaultMode else mode) w with ⟨r1, w1a⟩
  rw [h1] at h
  cases r1 with
  | error e => simp at h
  | ok b1 =>
    dsimp only at h
    rcases h2 : c.callExist (filepath.Join c.GetUploadDir (filepath.Base remote)) w1a
      with ⟨r2, w2⟩
    rw [h2] at h
    cases r2 with
    | error e => simp at h
    | ok b2 =>
      dsimp only at h
      rcases h3 : (if b2 = true then
            c.callRemove (filepath.Join c.GetUploadDir (filepath.Base remote)) w2
           else (none, w2)) with ⟨r3, w3⟩
      rw [h3] at h
      cases r3 with
      | some e => simp at h
      | none =>
        dsimp only at h
        unfold callSourceOpen at h
        cases h4 : c.SourceFileProviderOpen remote with
        | error e => rw [h4] at h; simp at h
        | ok rf =>
          rw [h4] at h
          dsimp only at h
          unfold callCreateFile at h
          rcases h5 : c.FilesAPI.CreateFile
            (filepath.Join c.GetUploadDir (filepath.Base remote)) rf (w3.log (.SourceOpen remote)).fs
            with ⟨r5, s5⟩
          rw [h5] at h
          cases r5 with
          | error e => simp at h
          | ok res =>
            obtain ⟨copiedBytes, md5Checksum⟩ := res
            dsimp only at h
            split at h
            · simp at h
            · rename_i hd
              simp only [ne_eq, not_not] at hd
              simp only [Prod.mk.injEq, Except.ok.injEq] at h
              obtain ⟨⟨hn, htmp⟩, hw⟩ := h
              subst hn htmp hd hw
              exact ⟨rfl, rf, _, rfl, h5⟩

/-- What a successful `copyFileToDestination` has done: after the destination directory
was ensured, the destination was removed if it existed, and the staging file was renamed
onto the destination, which left the filesystem in its final state. -/
theorem copyFileToDestination_ok (c : UploadManager σ) (tmp : String) (req : UploadedFile)
    (w w1 : World σ) (h : c.copyFileToDestination tmp req w = (none, w1)) :
    ∃ b s3, c.FilesAPI.Exist req.DestinationPath
        (c.FilesAPI.CreateDirIfNotExists (filepath.Dir req.DestinationPath)
          (if req.DestinationFileMode = 0 then c.DefaultMode else req.DestinationFileMode)
          w.fs).2 = .ok b ∧
      (if b = true then
        c.FilesAPI.Remove req.DestinationPath
          (c.FilesAPI.CreateDirIfNotExists (filepath.Dir req.DestinationPath)
            (if req.DestinationFileMode = 0 then c.DefaultMode else req.DestinationFileMode)
            w.fs).2 = (none, s3)
       else s3 = (c.FilesAPI.CreateDirIfNotExists (filepath.Dir req.DestinationPath)
          (if req.DestinationFileMode = 0 then c.DefaultMode else req.DestinationFileMode)
          w.fs).2) ∧
      c.FilesAPI.Rename tmp req.DestinationPath s3 = (none, w1.fs) := by
  unfold copyFileToDestination prepareDestinationDir callCreateDirIfNotExists callExist at h
  dsimp only at h
  rcases hcd : c.FilesAPI.CreateDirIfNotExists (filepath.Dir req.DestinationPath)
      (if req.DestinationFileMode = 0 then c.DefaultMode else req.DestinationFileMode)
      w.fs with ⟨r1, s2⟩
  rw [hcd] at h
  dsimp only at h ⊢
  cases r1 with
  | error e => simp at h
  | ok b1 =>
    dsimp only at h
    cases h2 : c.FilesAPI.Exist req.DestinationPath s2 with
    | error e => rw [h2] at h; simp at h
    | ok b2 =>
      rw [h2] at h
      dsimp only [World.log] at h
      cases b2 with
      | false =>
        simp only [Bool.false_eq_true, if_false] at h
        unfold callRename at h
        dsimp only at h
        rcases hrn : c.FilesAPI.Rename tmp req.DestinationPath s2 with ⟨r4, s4⟩
        rw [hrn] at h
        cases r4 with
        | some e => simp at h
        | none =>
          simp only [Prod.mk.injEq, true_and] at h
          subst h
          exact ⟨false, s2, rfl, by simp, hrn⟩
      | true =>
        simp only [if_true] at h
        unfold callRemove callRename at h
        dsimp only at h
        rcases hrm : c.FilesAPI.Remove req.DestinationPath s2 with ⟨r3, s3⟩
        rw [hrm] at h
        cases r3 with
        | some e => simp at h
        | none =>
          dsimp only at h
          rcases hrn : c.FilesAPI.Rename tmp req.DestinationPath s3 with ⟨r4, s4⟩
          rw [hrn] at h
          cases r4 with
          | some e => simp at h
          | none =>
            simp only [Prod.mk.injEq, true_and] at h
            subst h
            exact ⟨true, s3, rfl, by simp, hrn⟩

/-- C7: on the write path, when staging and install succeed, a failure of `ChangeMode` or
`ChangeOwner` does not abort the call: the staging file is renamed onto the destination,
the response has status `success`, and its message is the `.`-joined list of
`chmod failed: <err>` (present exactly when `ChangeMode` was called and failed),
`chown of <staging path> failed: <err>` (present exactly when `ChangeOwner` was called and
failed) and `file successfully copied to destination <destination path>`, in this order. -/
theorem HandleUploadRequest_metadata_failures_not_fatal (c : UploadManager σ)
    (payload : Bytes) (req : UploadedFile) (w w0 w1 : World σ) (n : Int) (tmp : String)
    (hreq : c.getUploadedFile payload = .ok req)
    (hentry : c.writePathEntry req w = some w0)
    (hstage : c.copyFileToTempLocation req.SourceFilePath req.DestinationFileMode
      req.Md5Checksum w0 = (.ok (n, tmp), w1))
    (hinstall : (c.copyFileToDestination tmp req
      (c.chownFile tmp req.DestinationFileOwner req.DestinationFileGroup
        (c.chmodFile tmp req.DestinationFileMode w1).2).2).1 = none) :
    c.HandleUploadRequest payload w =
      (.ok ⟨⟨req.ID, req.DestinationPath, n⟩,
          stringsJoin
            ((match (c.chmodFile tmp req.DestinationFileMode w1).1 with
              | some err => ["chmod failed: " ++ err]
              | none => []) ++
             (match (c.chownFile tmp req.DestinationFileOwner req.DestinationFileGroup
                (c.chmodFile tmp req.DestinationFileMode w1).2).1 with
              | some err => ["chown of " ++ tmp ++ " failed: " ++ err]
              | none => []) ++
             ["file successfully copied to destination " ++ req.DestinationPath]) ".",
          "success"⟩,
        (c.copyFileToDestination tmp req
          (c.chownFile tmp req.DestinationFileOwner req.DestinationFileGroup
            (c.chmodFile tmp req.DestinationFileMode w1).2).2).2) ∧
    tmp = filepath.Join c.GetUploadDir (filepath.Base req.SourceFilePath) ∧
    (∀ e, (c.chmodFile tmp req.DestinationFileMode w1).1 = some e ↔
      (req.DestinationFileMode ≠ 0 ∧
        (c.FilesAPI.ChangeMode tmp req.DestinationFileMode w1.fs).1 = some e)) ∧
    (∀ e, (c.chownFile tmp req.DestinationFileOwner req.DestinationFileGroup
        (c.chmodFile tmp req.DestinationFileMode w1).2).1 = some e ↔
      (¬ (req.DestinationFileOwner = "" ∧ req.DestinationFileGroup = "") ∧
        (c.FilesAPI.ChangeOwner tmp req.DestinationFileOwner req.DestinationFileGroup
          (c.chmodFile tmp req.DestinationFileMode w1).2.fs).1 = some e)) ∧
    (∃ s3, c.FilesAPI.Rename tmp req.DestinationPath s3 =
      (none, (c.HandleUploadRequest payload w).2.fs)) := by
  have heq := c.HandleUploadRequest_of_writePathEntry payload req w w0 hreq hentry
  have hres : c.handleWritingFile req w0 =
      (.ok ⟨⟨req.ID, req.DestinationPath, n⟩,
          stringsJoin
            ((match (c.chmodFile tmp req.DestinationFileMode w1).1 with
              | some err => ["chmod failed: " ++ err]
              | none => []) ++
             (match (c.chownFile tmp req.DestinationFileOwner req.DestinationFileGroup
                (c.chmodFile tmp req.DestinationFileMode w1).2).1 with
              | some err => ["chown of " ++ tmp ++ " failed: " ++ err]
              | none => []) ++
             ["file successfully copied to destination " ++ req.DestinationPath]) ".",
          "success"⟩,
        (c.copyFileToDestination tmp req
          (c.chownFile tmp req.DestinationFileOwner req.DestinationFileGroup
            (c.chmodFile tmp req.DestinationFileMode w1).2).2).2) := by
    unfold handleWritingFile
    rw [hstage]
    dsimp only
    rcases hd : c.copyFileToDestination tmp req
      (c.chownFile tmp req.DestinationFileOwner req.DestinationFileGroup
        (c.chmodFile tmp req.DestinationFileMode w1).2).2 with ⟨r4, w4⟩
    rw [hd] at hinstall
    dsimp only at hinstall
    subst hinstall
    dsimp only
    cases (c.chownFile tmp req.DestinationFileOwner req.DestinationFileGroup
      (c.chmodFile tmp req.DestinationFileMode w1).2).1 <;>
      cases (c.chmodFile tmp req.DestinationFileMode w1).1 <;> simp
  refine ⟨heq.trans hres, (c.copyFileToTempLocation_ok _ _ _ _ _ _ _ hstage).1, ?_, ?_, ?_⟩
  · intro e
    unfold chmodFile callChangeMode
    by_cases hm : req.DestinationFileMode = 0
    · simp [hm]
    · simp [hm]
  · intro e
    unfold chownFile callChangeOwner
    by_cases ho : req.DestinationFileOwner = "" ∧ req.DestinationFileGroup = ""
    · simp [ho]
    · simp only [ho, if_false, not_false_eq_true, true_and]
  · rw [heq, hres]
    rcases hd : c.copyFileToDestination tmp req
      (c.chownFile tmp req.DestinationFileOwner req.DestinationFileGroup
        (c.chmodFile tmp req.DestinationFileMode w1).2).2 with ⟨r4, w4⟩
    rw [hd] at hinstall
    dsimp only at hinstall
    subst hinstall
    obtain ⟨b, s3, _, _, hrn⟩ := c.copyFileToDestination_ok tmp req _ w4 hd
    exact ⟨s3, hrn⟩

/-- C7 at a concrete input: the filesystem supports neither `ChangeMode` nor `ChangeOwner`,
the request asks for both; the file is installed and the message carries both warnings. -/
theorem HandleUploadRequest_metadata_failures_not_fatal_witness :
    metadataManager.getUploadedFile [] = .ok metadataRequest ∧
    metadataManager.writePathEntry metadataRequest emptyWorld
      = some (emptyWorld.log (.Exist "/data/f.txt")) ∧
    (metadataManager.copyFileToTempLocation "/remote/f.txt" 0o600 (md5.Sum helloBytes)
      (emptyWorld.log (.Exist "/data/f.txt"))).1 = .ok (5, "/tmp/up/f.txt") ∧
    (metadataManager.HandleUploadRequest [] emptyWorld).1 =
      .ok ⟨⟨"req-1", "/data/f.txt", 5⟩,
        "chmod failed: chmod /tmp/up/f.txt: not supported.chown of /tmp/up/f.txt failed: chown /tmp/up/f.txt: not supported.file successfully copied to destination /data/f.txt",
        "success"⟩ ∧
    MemFS.content (metadataManager.HandleUploadRequest [] emptyWorld).2.fs "/data/f.txt"
      = some helloBytes :=
  ⟨rfl, rfl, rfl,
    congrArg Prod.fst
      (HandleUploadRequest_metadata_failures_not_fatal metadataManager [] metadataRequest
        emptyWorld (emptyWorld.log (.Exist "/data/f.txt"))
        (metadataManager.copyFileToTempLocation "/remote/f.txt" 0o600 (md5.Sum helloBytes)
          (emptyWorld.log (.Exist "/data/f.txt"))).2
        5 "/tmp/up/f.txt" rfl rfl rfl rfl).1,
    rfl⟩

/-- A response with status `success` comes from the write path. -/
theorem HandleUploadRequest_success_from_write (c : UploadManager σ) (payload : Bytes)
    (req : UploadedFile) (w w1 : World σ) (resp : UploadResponse)
    (hreq : c.getUploadedFile payload = .ok req)
    (h : c.HandleUploadRequest payload w = (.ok resp, w1))
    (hstatus : resp.Status = "success") :
    ∃ w0, c.writePathEntry req w = some w0 ∧ c.handleWritingFile req w0 = (.ok resp, w1) := by
  unfold HandleUploadRequest at h
  unfold writePathEntry
  rw [hreq] at h
  dsimp only at h
  rcases he : c.callExist req.DestinationPath w with ⟨r1, wa⟩
  rw [he] at h
  cases r1 with
  | error e => simp at h
  | ok b =>
    dsimp only at h ⊢
    by_cases hc : (!b || req.ForceWrite) = true
    · rw [if_pos hc] at h
      rw [if_pos hc]
      exact ⟨wa, rfl, h⟩
    · rw [if_neg hc] at h
      rw [if_neg hc]
      rcases hs : c.fileShouldBeSynched req wa with ⟨r2, wb⟩
      rw [hs] at h
      cases r2 with
      | error e => simp at h
      | ok b2 =>
        cases b2 with
        | true => exact ⟨wb, rfl, by simpa using h⟩
        | false =>
          simp only [Bool.false_eq_true, if_false, Prod.mk.injEq, Except.ok.injEq] at h
          rw [← h.1] at hstatus
          exact absurd (show "ignored" = "success" from hstatus) (by decide)

/-- A response of the write path means that the last filesystem operation was a successful
`Rename` of the staging file onto the destination. -/
theorem handleWritingFile_ok_rename (c : UploadManager σ) (req : UploadedFile)
    (w0 w1 : World σ) (resp : UploadResponse)
    (h : c.handleWritingFile req w0 = (.ok resp, w1)) :
    ∃ s3, c.FilesAPI.Rename (filepath.Join c.GetUploadDir (filepath.Base req.SourceFilePath))
      req.DestinationPath s3 = (none, w1.fs) := by
  unfold handleWritingFile at h
  rcases hst : c.copyFileToTempLocation req.SourceFilePath req.DestinationFileMode
    req.Md5Checksum w0 with ⟨r1, wa⟩
  rw [hst] at h
  cases r1 with
  | error e => simp at h
  | ok res =>
    obtain ⟨n, tmp⟩ := res
    dsimp only at h
    have htmp := (c.copyFileToTempLocation_ok _ _ _ _ _ _ _ hst).1
    rcases hd : c.copyFileToDestination tmp req
      (c.chownFile tmp req.DestinationFileOwner req.DestinationFileGroup
        (c.chmodFile tmp req.DestinationFileMode wa).2).2 with ⟨r4, w4⟩
    rw [hd] at h
    cases r4 with
    | some e => simp at h
    | none =>
      simp only [Prod.mk.injEq, Except.ok.injEq] at h
      obtain ⟨b, s3, _, _, hrn⟩ := c.copyFileToDestination_ok tmp req _ w4 hd
      rw [← h.2, ← htmp]
      exact ⟨s3, hrn⟩

/-- C8: over a filesystem in which a successful `Rename` makes `Exist` of its target true,
when a call for a request with force and sync unset returned `success`, the same payload
sent again right away is answered by `ignored`, and this second call leaves the filesystem
as it is (its only call is the existence query). -/
theorem HandleUploadRequest_replay_ignored (c : UploadManager σ) (payload : Bytes)
    (req : UploadedFile) (w w1 : World σ) (resp : UploadResponse)
    (hrename : ∀ oldPath s s1, c.FilesAPI.Rename oldPath req.DestinationPath s = (none, s1) →
      c.FilesAPI.Exist req.DestinationPath s1 = .ok true)
    (hreq : c.getUploadedFile payload = .ok req)
    (hforce : req.ForceWrite = false) (hsync : req.Sync = false)
    (hfirst : c.HandleUploadRequest payload w = (.ok resp, w1))
    (hstatus : resp.Status = "success") :
    ∃ resp2 w2, c.HandleUploadRequest payload w1 = (.ok resp2, w2) ∧
      resp2.Status = "ignored" ∧
      w2.fs = w1.fs ∧
      w2.trace = w1.trace ++ [Call.Exist req.DestinationPath] := by
  obtain ⟨w0, _, hw⟩ := c.HandleUploadRequest_success_from_write payload req w w1 resp hreq
    hfirst hstatus
  obtain ⟨s3, hrn⟩ := c.handleWritingFile_ok_rename req w0 w1 resp hw
  have hexist := hrename _ _ _ hrn
  exact ⟨_, _, c.HandleUploadRequest_ignore_path payload req w1 hreq hexist hforce hsync,
    rfl, rfl, rfl⟩

/-- C8 at a concrete input: `hello` is written to the absent `/data/f.txt`, the same payload
is then ignored. -/
theorem HandleUploadRequest_replay_ignored_witness :
    (∀ oldPath s s1, memAPI.Rename oldPath helloRequest.DestinationPath s = (none, s1) →
      memAPI.Exist helloRequest.DestinationPath s1 = .ok true) ∧
    helloManager.getUploadedFile [] = .ok helloRequest ∧
    (helloManager.HandleUploadRequest [] emptyWorld).1 =
      .ok ⟨⟨"req-1", "/data/f.txt", 5⟩,
        "file successfully copied to destination /data/f.txt", "success"⟩ ∧
    (∃ resp2 w2, helloManager.HandleUploadRequest []
        (helloManager.HandleUploadRequest [] emptyWorld).2 = (.ok resp2, w2) ∧
      resp2.Status = "ignored" ∧
      w2.fs = (helloManager.HandleUploadRequest [] emptyWorld).2.fs ∧
      w2.trace = (helloManager.HandleUploadRequest [] emptyWorld).2.trace
        ++ [Call.Exist helloRequest.DestinationPath]) :=
  ⟨fun _ _ _ h => (memAPI_contentLaws.rename _ _ _ _ h).2.2, rfl, rfl,
    HandleUploadRequest_replay_ignored helloManager [] helloRequest emptyWorld
      (helloManager.HandleUploadRequest [] emptyWorld).2
      ⟨⟨"req-1", "/data/f.txt", 5⟩,
        "file successfully copied to destination /data/f.txt", "success"⟩
      (fun _ _ _ h => (memAPI_contentLaws.rename _ _ _ _ h).2.2) rfl rfl rfl rfl rfl⟩

/-- `chmodFile` changes no file content. -/
theorem chmodFile_content (c : UploadManager σ) (content : σ → String → Option Bytes)
    (laws : ContentLaws c.FilesAPI content) (path : String) (mode : Nat) (w : World σ)
    (q : String) : content (c.chmodFile path mode w).2.fs q = content w.fs q := by
  unfold chmodFile callChangeMode
  split
  · rfl
  · exact laws.changeMode path mode w.fs q

/-- `chownFile` changes no file content. -/
theorem chownFile_content (c : UploadManager σ) (content : σ → String → Option Bytes)
    (laws : ContentLaws c.FilesAPI content) (path owner group : String) (w : World σ)
    (q : String) : content (c.chownFile path owner group w).2.fs q = content w.fs q := by
  unfold chownFile callChangeOwner
  split
  · rfl
  · exact laws.changeOwner path owner group w.fs q

/-- C6: over a filesystem that satisfies `ContentLaws`, when a request takes the write path
and a response is returned, the response has status `success`, its byte count is the count
`CreateFile` reported for the remote stream, which is the length of the transferred bytes,
and afterwards the destination exists and holds exactly the transferred bytes. -/
theorem HandleUploadRequest_write_installs_content (c : UploadManager σ)
    (content : σ → String → Option Bytes) (laws : ContentLaws c.FilesAPI content)
    (payload : Bytes) (req : UploadedFile) (w w0 w1 : World σ) (resp : UploadResponse)
    (hreq : c.getUploadedFile payload = .ok req)
    (hentry : c.writePathEntry req w = some w0)
    (hcall : c.HandleUploadRequest payload w = (.ok resp, w1)) :
    resp.Status = "success" ∧
    ∃ remoteFile s d s1,
      c.SourceFileProviderOpen req.SourceFilePath = .ok remoteFile ∧
      c.FilesAPI.CreateFile (filepath.Join c.GetUploadDir (filepath.Base req.SourceFilePath))
        remoteFile s = (.ok (resp.UploadResponseShort.SizeBytes, d), s1) ∧
      resp.UploadResponseShort.SizeBytes = remoteFile.data.length ∧
      c.FilesAPI.Exist req.DestinationPath w1.fs = .ok true ∧
      content w1.fs req.DestinationPath = some remoteFile.data := by
  have heq := c.HandleUploadRequest_of_writePathEntry payload req w w0 hreq hentry
  rw [heq] at hcall
  refine ⟨c.handleWritingFile_status req w0 w1 resp hcall, ?_⟩
  unfold handleWritingFile at hcall
  rcases hst : c.copyFileToTempLocation req.SourceFilePath req.DestinationFileMode
    req.Md5Checksum w0 with ⟨r1, wa⟩
  rw [hst] at hcall
  cases r1 with
  | error e => simp at hcall
  | ok res =>
    obtain ⟨n, tmp⟩ := res
    dsimp only at hcall
    obtain ⟨htmp, rf, s, hopen, hcreate⟩ := c.copyFileToTempLocation_ok _ _ _ _ _ _ _ hst
    obtain ⟨hcontent, hn⟩ := laws.createFile _ _ _ _ _ _ hcreate
    rcases hd : c.copyFileToDestination tmp req
      (c.chownFile tmp req.DestinationFileOwner req.DestinationFileGroup
        (c.chmodFile tmp req.DestinationFileMode wa).2).2 with ⟨r4, w4⟩
    rw [hd] at hcall
    cases r4 with
    | some e => simp at hcall
    | none =>
      simp only [Prod.mk.injEq, Except.ok.injEq] at hcall
      obtain ⟨hresp, hw⟩ := hcall
      subst hw
      obtain ⟨b, s3, hexist, hremove, hrename⟩ := c.copyFileToDestination_ok tmp req _ w4 hd
      obtain ⟨hsrc, hmoved, hdest⟩ := laws.rename _ _ _ _ hrename
      have hsize : resp.UploadResponseShort.SizeBytes = n := by rw [← hresp]
      have hstaged : content
          (c.FilesAPI.CreateDirIfNotExists (filepath.Dir req.DestinationPath)
            (if req.DestinationFileMode = 0 then c.DefaultMode else req.DestinationFileMode)
            (c.chownFile tmp req.DestinationFileOwner req.DestinationFileGroup
              (c.chmodFile tmp req.DestinationFileMode wa).2).2.fs).2 tmp
          = some rf.data := by
        rw [laws.createDir, chownFile_content c content laws,
          chmodFile_content c content laws, hcontent]
      have hs3 : content s3 tmp = some rf.data := by
        cases b with
        | false =>
          simp only [Bool.false_eq_true, if_false] at hremove
          rw [hremove, hstaged]
        | true =>
          simp only [if_true] at hremove
          obtain ⟨hgone, hkept⟩ := laws.remove _ _ _ hremove
          have hne : tmp ≠ req.DestinationPath := by
            intro e
            rw [e, hgone] at hsrc
            simp at hsrc
          rw [hkept tmp hne, hstaged]
      refine ⟨rf, s, req.Md5Checksum, wa.fs, hopen, ?_, ?_, hdest, ?_⟩
      · rw [hsize, ← htmp]
        exact hcreate
      · rw [hsize, hn]
      · rw [hmoved, hs3]

/-- C6 at the example of the specification: the destination is absent, the expected digest
is the one of `hello` and `hello` is transferred; the result is `success` with 5 bytes and
the destination holds `hello`. -/
theorem HandleUploadRequest_write_installs_content_witness :
    ContentLaws helloManager.FilesAPI MemFS.content ∧
    helloManager.getUploadedFile [] = .ok helloRequest ∧
    helloManager.writePathEntry helloRequest emptyWorld
      = some (emptyWorld.log (.Exist "/data/f.txt")) ∧
    (helloManager.HandleUploadRequest [] emptyWorld).1 =
      .ok ⟨⟨"req-1", "/data/f.txt", 5⟩,
        "file successfully copied to destination /data/f.txt", "success"⟩ ∧
    (∃ remoteFile s d s1,
      helloManager.SourceFileProviderOpen "/remote/f.txt" = .ok remoteFile ∧
      helloManager.FilesAPI.CreateFile "/tmp/up/f.txt" remoteFile s = (.ok (5, d), s1) ∧
      (5 : Int) = remoteFile.data.length ∧
      helloManager.FilesAPI.Exist "/data/f.txt"
        (helloManager.HandleUploadRequest [] emptyWorld).2.fs = .ok true ∧
      MemFS.content (helloManager.HandleUploadRequest [] emptyWorld).2.fs "/data/f.txt"
        = some remoteFile.data) ∧
    MemFS.content (helloManager.HandleUploadRequest [] emptyWorld).2.fs "/data/f.txt"
      = some helloBytes :=
  ⟨memAPI_contentLaws, rfl, rfl, rfl,
    (HandleUploadRequest_write_installs_content helloManager MemFS.content
      memAPI_contentLaws [] helloRequest emptyWorld (emptyWorld.log (.Exist "/data/f.txt"))
      (helloManager.HandleUploadRequest [] emptyWorld).2
      ⟨⟨"req-1", "/data/f.txt", 5⟩,
        "file successfully copied to destination /data/f.txt", "success"⟩
      rfl rfl rfl).2,
    rfl⟩

/-- C5, as the code has it: on the write path, when `CreateFile` returns a digest that
differs from the expected one, the call returns an error and no response; the error text
carries the expected and the measured digest; after `CreateFile` the only filesystem call is
the `Remove` of the staging path (no destination directory creation, no `Rename`); and when
that `Remove` succeeds, on a filesystem where a successful `Remove` leaves nothing at its
path, no staging artifact exists afterwards.  A failure of that `Remove` is only logged. -/
theorem HandleUploadRequest_checksum_mismatch (c : UploadManager σ) (payload : Bytes)
    (req : UploadedFile) (w w0 : World σ) (tmp : String) (b1 b2 : Bool) (s1 s3 s5 : σ)
    (remoteFile : ReadCloser) (n : Int) (d : Bytes)
    (hreq : c.getUploadedFile payload = .ok req)
    (hentry : c.writePathEntry req w = some w0)
    (htmp : tmp = filepath.Join c.GetUploadDir (filepath.Base req.SourceFilePath))
    (hdir : c.FilesAPI.CreateDirIfNotExists c.GetUploadDir
      (if req.DestinationFileMode = 0 then c.DefaultMode else req.DestinationFileMode) w0.fs
      = (.ok b1, s1))
    (hexist : c.FilesAPI.Exist tmp s1 = .ok b2)
    (hclean : if b2 = true then c.FilesAPI.Remove tmp s1 = (none, s3) else s3 = s1)
    (hopen : c.SourceFileProviderOpen req.SourceFilePath = .ok remoteFile)
    (hcreate : c.FilesAPI.CreateFile tmp remoteFile s3 = (.ok (n, d), s5))
    (hdiff : d ≠ req.Md5Checksum) :
    c.HandleUploadRequest payload w =
      (.error ("md5 check failed: checksum from server " ++ hex req.Md5Checksum
          ++ " doesn\x27t equal the calculated checksum " ++ hex d),
        ⟨(c.FilesAPI.Remove tmp s5).2,
          w0.trace ++
            [Call.CreateDirIfNotExists c.GetUploadDir
              (if req.DestinationFileMode = 0 then c.DefaultMode else req.DestinationFileMode),
             Call.Exist tmp] ++
            (if b2 = true then [Call.Remove tmp] else []) ++
            [Call.SourceOpen req.SourceFilePath, Call.CreateFile tmp, Call.Remove tmp,
             Call.SourceClose req.SourceFilePath]⟩) ∧
    ((c.FilesAPI.Remove tmp s5).1 = none →
      (∀ p s s2, c.FilesAPI.Remove p s = (none, s2) → c.FilesAPI.Exist p s2 = .ok false) →
      c.FilesAPI.Exist tmp (c.HandleUploadRequest payload w).2.fs = .ok false) := by
  subst htmp
  have heq := c.HandleUploadRequest_of_writePathEntry payload req w w0 hreq hentry
  have hres : c.handleWritingFile req w0 =
      (.error ("md5 check failed: checksum from server " ++ hex req.Md5Checksum
          ++ " doesn\x27t equal the calculated checksum " ++ hex d),
        ⟨(c.FilesAPI.Remove (filepath.Join c.GetUploadDir (filepath.Base req.SourceFilePath))
            s5).2,
          w0.trace ++
            [Call.CreateDirIfNotExists c.GetUploadDir
              (if req.DestinationFileMode = 0 then c.DefaultMode else req.DestinationFileMode),
             Call.Exist (filepath.Join c.GetUploadDir (filepath.Base req.SourceFilePath))] ++
            (if b2 = true then
              [Call.Remove (filepath.Join c.GetUploadDir (filepath.Base req.SourceFilePath))]
             else []) ++
            [Call.SourceOpen req.SourceFilePath,
             Call.CreateFile (filepath.Join c.GetUploadDir (filepath.Base req.SourceFilePath)),
             Call.Remove (filepath.Join c.GetUploadDir (filepath.Base req.SourceFilePath)),
             Call.SourceClose req.SourceFilePath]⟩) := by
    unfold handleWritingFile copyFileToTempLocation callCreateDirIfNotExists callExist
      callSourceOpen callCreateFile callSourceClose callRemove
    cases b2 with
    | false =>
      simp only [Bool.false_eq_true, if_false] at hclean
      subst hclean
      simp [hdir, hexist, hopen, hcreate, hdiff, World.log]
    | true =>
      simp only [if_true] at hclean
      simp [hdir, hexist, hopen, hcreate, hdiff, hclean, World.log]
  refine ⟨heq.trans hres, ?_⟩
  intro hrm hlaw
  rw [heq, hres]
  exact hlaw _ s5 _ (Prod.ext hrm rfl)

/-- C5 at a concrete input: `hellp` arrives where the digest of `hello` is expected; the
call fails and the staging artifact is removed. -/
theorem HandleUploadRequest_checksum_mismatch_witness :
    corruptManager.getUploadedFile [] = .ok helloRequest ∧
    corruptManager.writePathEntry helloRequest emptyWorld
      = some (emptyWorld.log (.Exist "/data/f.txt")) ∧
    md5.Sum hellpBytes ≠ helloRequest.Md5Checksum ∧
    (corruptManager.HandleUploadRequest [] emptyWorld).1 =
      .error ("md5 check failed: checksum from server " ++ hex (md5.Sum helloBytes)
        ++ " doesn\x27t equal the calculated checksum " ++ hex (md5.Sum hellpBytes)) ∧
    corruptManager.FilesAPI.Exist "/tmp/up/f.txt"
      (corruptManager.HandleUploadRequest [] emptyWorld).2.fs = .ok false :=
  ⟨rfl, rfl, by decide,
    congrArg Prod.fst
      (HandleUploadRequest_checksum_mismatch corruptManager [] helloRequest emptyWorld
        (emptyWorld.log (.Exist "/data/f.txt")) "/tmp/up/f.txt" true false
        [("/tmp/up", ⟨true, [], 0o764, "", ""⟩)] [("/tmp/up", ⟨true, [], 0o764, "", ""⟩)]
        [("/tmp/up/f.txt", fileNode hellpBytes), ("/tmp/up", ⟨true, [], 0o764, "", ""⟩)]
        corruptStream 5 (md5.Sum hellpBytes)
        rfl rfl rfl rfl rfl rfl rfl rfl (by decide)).1,
    (HandleUploadRequest_checksum_mismatch corruptManager [] helloRequest emptyWorld
        (emptyWorld.log (.Exist "/data/f.txt")) "/tmp/up/f.txt" true false
        [("/tmp/up", ⟨true, [], 0o764, "", ""⟩)] [("/tmp/up", ⟨true, [], 0o764, "", ""⟩)]
        [("/tmp/up/f.txt", fileNode hellpBytes), ("/tmp/up", ⟨true, [], 0o764, "", ""⟩)]
        corruptStream 5 (md5.Sum hellpBytes)
        rfl rfl rfl rfl rfl rfl rfl rfl (by decide)).2 rfl
      (fun _ _ _ h => (memAPI_contentLaws.remove _ _ _ h).1)⟩

/-- C5 as stated fails: on a filesystem whose `Remove` fails, the request reaches the write
path, `CreateFile` returns a digest that differs from the expected one, the call fails,
and the staging artifact is still at the staging path afterwards. -/
theorem stagingArtifact_left_when_remove_fails :
    corruptStuckManager.getUploadedFile [] = .ok helloRequest ∧
    corruptStuckManager.writePathEntry helloRequest emptyWorld
      = some (emptyWorld.log (.Exist "/data/f.txt")) ∧
    corruptStuckManager.FilesAPI.CreateFile "/tmp/up/f.txt" corruptStream
        [("/tmp/up", ⟨true, [], 0o764, "", ""⟩)]
      = (.ok (5, md5.Sum hellpBytes),
          [("/tmp/up/f.txt", fileNode hellpBytes), ("/tmp/up", ⟨true, [], 0o764, "", ""⟩)]) ∧
    md5.Sum hellpBytes ≠ helloRequest.Md5Checksum ∧
    (corruptStuckManager.HandleUploadRequest [] emptyWorld).1 =
      .error ("md5 check failed: checksum from server " ++ hex (md5.Sum helloBytes)
        ++ " doesn\x27t equal the calculated checksum " ++ hex (md5.Sum hellpBytes)) ∧
    corruptStuckManager.FilesAPI.Exist "/tmp/up/f.txt"
      (corruptStuckManager.HandleUploadRequest [] emptyWorld).2.fs = .ok true ∧
    MemFS.content (corruptStuckManager.HandleUploadRequest [] emptyWorld).2.fs "/tmp/up/f.txt"
      = some hellpBytes :=
  ⟨rfl, rfl, rfl, by decide, rfl, rfl, rfl⟩

/-- C9, as the code has it: on the write path, when `SourceFileProvider.Open` fails, the
call returns that error and no response; the calls made on the write path are the
`CreateDirIfNotExists` of the upload directory (which creates it when it is absent), the
existence query for the staging path, the `Remove` of an old staging artifact when there is
one, and the remote open: `CreateFile` is not called, no destination directory is created,
the destination is neither removed nor renamed onto; and on a filesystem where a successful
`Remove` leaves nothing at its path, no staging artifact exists afterwards. -/
theorem HandleUploadRequest_open_failure (c : UploadManager σ) (payload : Bytes)
    (req : UploadedFile) (w w0 : World σ) (tmp : String) (b1 b2 : Bool) (s1 s3 : σ)
    (err : Error)
    (hreq : c.getUploadedFile payload = .ok req)
    (hentry : c.writePathEntry req w = some w0)
    (htmp : tmp = filepath.Join c.GetUploadDir (filepath.Base req.SourceFilePath))
    (hdir : c.FilesAPI.CreateDirIfNotExists c.GetUploadDir
      (if req.DestinationFileMode = 0 then c.DefaultMode else req.DestinationFileMode) w0.fs
      = (.ok b1, s1))
    (hexist : c.FilesAPI.Exist tmp s1 = .ok b2)
    (hclean : if b2 = true then c.FilesAPI.Remove tmp s1 = (none, s3) else s3 = s1)
    (hopen : c.SourceFileProviderOpen req.SourceFilePath = .error err) :
    c.HandleUploadRequest payload w =
      (.error err,
        ⟨s3,
          w0.trace ++
            [Call.CreateDirIfNotExists c.GetUploadDir
              (if req.DestinationFileMode = 0 then c.DefaultMode else req.DestinationFileMode),
             Call.Exist tmp] ++
            (if b2 = true then [Call.Remove tmp] else []) ++
            [Call.SourceOpen req.SourceFilePath]⟩) ∧
    ((∀ p s s2, c.FilesAPI.Remove p s = (none, s2) → c.FilesAPI.Exist p s2 = .ok false) →
      c.FilesAPI.Exist tmp (c.HandleUploadRequest payload w).2.fs = .ok false) := by
  subst htmp
  have heq := c.HandleUploadRequest_of_writePathEntry payload req w w0 hreq hentry
  have hres : c.handleWritingFile req w0 =
      (.error err,
        ⟨s3,
          w0.trace ++
            [Call.CreateDirIfNotExists c.GetUploadDir
              (if req.DestinationFileMode = 0 then c.DefaultMode else req.DestinationFileMode),
             Call.Exist (filepath.Join c.GetUploadDir (filepath.Base req.SourceFilePath))] ++
            (if b2 = true then
              [Call.Remove (filepath.Join c.GetUploadDir (filepath.Base req.SourceFilePath))]
             else []) ++
            [Call.SourceOpen req.SourceFilePath]⟩) := by
    unfold handleWritingFile copyFileToTempLocation callCreateDirIfNotExists callExist
      callSourceOpen callRemove
    cases b2 with
    | false =>
      simp only [Bool.false_eq_true, if_false] at hclean
      subst hclean
      simp [hdir, hexist, hopen, World.log]
    | true =>
      simp only [if_true] at hclean
      simp [hdir, hexist, hopen, hclean, World.log]
  refine ⟨heq.trans hres, ?_⟩
  intro hlaw
  rw [heq, hres]
  cases b2 with
  | false =>
    simp only [Bool.false_eq_true, if_false] at hclean
    subst hclean
    exact hexist
  | true =>
    simp only [if_true] at hclean
    exact hlaw _ _ _ hclean

/-- C9 at a concrete input: the upload directory exists and holds an old staging artifact,
the remote open fails; the old artifact is removed and nothing is created. -/
theorem HandleUploadRequest_open_failure_witness :
    offlineManager.getUploadedFile [] = .ok helloRequest ∧
    offlineManager.writePathEntry helloRequest aliasWorld
      = some (aliasWorld.log (.Exist "/data/f.txt")) ∧
    offlineManager.SourceFileProviderOpen "/remote/f.txt" = .error "sftp: connection lost" ∧
    offlineManager.HandleUploadRequest [] aliasWorld =
      (.error "sftp: connection lost",
        ⟨[("/tmp/up", ⟨true, [], 0o764, "", ""⟩)],
          [Call.Exist "/data/f.txt", Call.CreateDirIfNotExists "/tmp/up" 0o764,
           Call.Exist "/tmp/up/f.txt", Call.Remove "/tmp/up/f.txt",
           Call.SourceOpen "/remote/f.txt"]⟩) ∧
    offlineManager.FilesAPI.Exist "/tmp/up/f.txt"
      (offlineManager.HandleUploadRequest [] aliasWorld).2.fs = .ok false :=
  ⟨rfl, rfl, rfl,
    (HandleUploadRequest_open_failure offlineManager [] helloRequest aliasWorld
      (aliasWorld.log (.Exist "/data/f.txt")) "/tmp/up/f.txt" false true aliasWorld.fs
      [("/tmp/up", ⟨true, [], 0o764, "", ""⟩)] "sftp: connection lost"
      rfl rfl rfl rfl rfl rfl rfl).1,
    (HandleUploadRequest_open_failure offlineManager [] helloRequest aliasWorld
      (aliasWorld.log (.Exist "/data/f.txt")) "/tmp/up/f.txt" false true aliasWorld.fs
      [("/tmp/up", ⟨true, [], 0o764, "", ""⟩)] "sftp: connection lost"
      rfl rfl rfl rfl rfl rfl rfl).2
      (fun _ _ _ h => (memAPI_contentLaws.remove _ _ _ h).1)⟩

/-- C9 as stated fails: the request is on the write path and the remote open fails, yet a
directory has been newly created: the upload directory, absent before the call, exists
after it. -/
theorem uploadDir_created_before_failed_open :
    offlineManager.getUploadedFile [] = .ok helloRequest ∧
    offlineManager.writePathEntry helloRequest emptyWorld
      = some (emptyWorld.log (.Exist "/data/f.txt")) ∧
    offlineManager.SourceFileProviderOpen "/remote/f.txt" = .error "sftp: connection lost" ∧
    (offlineManager.HandleUploadRequest [] emptyWorld).1 = .error "sftp: connection lost" ∧
    offlineManager.FilesAPI.Exist "/tmp/up" emptyWorld.fs = .ok false ∧
    offlineManager.FilesAPI.Exist "/tmp/up"
      (offlineManager.HandleUploadRequest [] emptyWorld).2.fs = .ok true ∧
    (offlineManager.HandleUploadRequest [] emptyWorld).2.fs
      = [("/tmp/up", ⟨true, [], 0o764, "", ""⟩)] :=
  ⟨rfl, rfl, rfl, rfl, rfl, rfl, rfl⟩

/-- C4 at the failing input: the destination `/tmp/up/f.txt` is the staging path and holds
`old`; `hellp` arrives where the digest of `hello` is expected.  Before the measured digest
is compared, the destination is removed and written (`Remove` and `CreateFile` on the
destination path); the verification fails, and the destination, which held `old`, is gone
after the call. -/
theorem aliased_destination_lost_on_failed_verification :
    aliasManager.getUploadedFile [] = .ok aliasRequest ∧
    aliasRequest.DestinationPath
      = filepath.Join aliasManager.GetUploadDir (filepath.Base aliasRequest.SourceFilePath) ∧
    MemFS.content aliasWorld.fs aliasRequest.DestinationPath = some oldBytes ∧
    (aliasManager.HandleUploadRequest [] aliasWorld).1 =
      .error ("md5 check failed: checksum from server " ++ hex (md5.Sum helloBytes)
        ++ " doesn\x27t equal the calculated checksum " ++ hex (md5.Sum hellpBytes)) ∧
    (aliasManager.HandleUploadRequest [] aliasWorld).2.trace =
      [Call.Exist "/tmp/up/f.txt", Call.CreateDirIfNotExists "/tmp/up" 0o764,
       Call.Exist "/tmp/up/f.txt", Call.Remove "/tmp/up/f.txt",
       Call.SourceOpen "/remote/f.txt", Call.CreateFile "/tmp/up/f.txt",
       Call.Remove "/tmp/up/f.txt", Call.SourceClose "/remote/f.txt"] ∧
    MemFS.content (aliasManager.HandleUploadRequest [] aliasWorld).2.fs
      aliasRequest.DestinationPath = none ∧
    aliasManager.FilesAPI.Exist aliasRequest.DestinationPath
      (aliasManager.HandleUploadRequest [] aliasWorld).2.fs = .ok false :=
  ⟨rfl, by decide, rfl, rfl, rfl, rfl, rfl⟩

end UploadManager

/-- C10: `SftpSession.Close` closes the remote file stream and then the SFTP client,
whatever the stream close returned (the final state is the client close applied after the
stream close); it returns nil exactly when both closes return nil; when one of them fails
the error text is that failure, and when both fail it is the stream error, then `, `, then
the client error. -/
theorem SftpSession_Close_both {σ : Type} (ss : SftpSession σ) (s : σ) :
    (ss.Close s).2 = (ss.SftpClClose (ss.RemoveFileDataClose s).2).2 ∧
    ((ss.Close s).1 = none ↔
      (ss.RemoveFileDataClose s).1 = none ∧
        (ss.SftpClClose (ss.RemoveFileDataClose s).2).1 = none) ∧
    (ss.Close s).1 =
      (match (ss.RemoveFileDataClose s).1, (ss.SftpClClose (ss.RemoveFileDataClose s).2).1 with
       | none, none => none
       | some e1, none => some e1
       | none, some e2 => some e2
       | some e1, some e2 => some (e1 ++ ", " ++ e2)) := by
  unfold SftpSession.Close
  dsimp only
  cases h1 : (ss.RemoveFileDataClose s).1 <;>
    cases h2 : (ss.SftpClClose (ss.RemoveFileDataClose s).2).1 <;>
    simp [stringsJoin, String.intercalate, String.intercalate.go]

/-! ### Recipients column -/

/-- The characters of `String.intercalate.go`. -/
theorem intercalate_go_data (sep : String) (l : List String) (acc : String) :
    (String.intercalate.go acc sep l).data
      = acc.data ++ l.flatMap (fun a => sep.data ++ a.data) := by
  induction l generalizing acc with
  | nil => simp [String.intercalate.go]
  | cons a rest ih =>
    simp [String.intercalate.go, ih, List.append_assoc]

/-- The characters of `strings.Join` of a non-empty list. -/
theorem stringsJoin_cons_data (sep a : String) (rest : List String) :
    (stringsJoin (a :: rest) sep).data
      = a.data ++ rest.flatMap (fun b => sep.data ++ b.data) := by
  simp [stringsJoin, String.intercalate, intercalate_go_data]

/-- A separator `@|@` at the head of a text has `|` as the second character. -/
theorem isPrefixOf_sep_second (c : Char) (rest : List Char)
    (h : (['@', '|', '@'] : List Char).isPrefixOf (c :: rest) = true) :
    rest.head? = some '|' := by
  cases rest with
  | nil => simp [List.isPrefixOf] at h
  | cons d rest2 =>
    simp [List.isPrefixOf] at h
    simp only [List.head?_cons, Option.some.injEq]
    exact h.2.1.symm

/-- Characters without `|` that are not followed by `|` are added to the current piece. -/
theorem splitAux_scan (a : List Char) (tail cur : List Char) (ha : '|' ∉ a)
    (ht : tail.head? ≠ some '|') :
    splitAux ['@', '|', '@'] 0 cur (a ++ tail)
      = splitAux ['@', '|', '@'] 0 (a.reverse ++ cur) tail := by
  induction a generalizing cur with
  | nil => rfl
  | cons c rest ih =>
    have hrest : '|' ∉ rest := fun h => ha (List.mem_cons_of_mem _ h)
    have hnext : (rest ++ tail).head? ≠ some '|' := by
      cases rest with
      | nil => simpa using ht
      | cons d rest2 =>
        intro h
        simp at h
        exact ha (by simp [h])
    have hno : (['@', '|', '@'] : List Char).isPrefixOf (c :: (rest ++ tail)) = false := by
      cases hp : (['@', '|', '@'] : List Char).isPrefixOf (c :: (rest ++ tail)) with
      | false => rfl
      | true => exact absurd (isPrefixOf_sep_second c _ hp) hnext
    show splitAux ['@', '|', '@'] 0 cur (c :: (rest ++ tail)) = _
    rw [splitAux, hno]
    simp only [Bool.false_eq_true, if_false]
    rw [ih (c :: cur) hrest]
    simp [List.reverse_cons, List.append_assoc]

/-- A separator at the head of the text ends the current piece. -/
theorem splitAux_sep (cur tail : List Char) :
    splitAux ['@', '|', '@'] 0 cur (['@', '|', '@'] ++ tail)
      = cur.reverse :: splitAux ['@', '|', '@'] 0 [] tail := by
  simp [splitAux, List.isPrefixOf]

/-- Splitting the joined pieces gives the pieces back when none of them holds `|`. -/
theorem splitAux_join (rest : List (List Char)) (a cur : List Char) (ha : '|' ∉ a)
    (hrest : ∀ b ∈ rest, '|' ∉ b) :
    splitAux ['@', '|', '@'] 0 cur (a ++ rest.flatMap (fun b => ['@', '|', '@'] ++ b))
      = (cur.reverse ++ a) :: rest := by
  induction rest generalizing a cur with
  | nil =>
    simp only [List.flatMap_nil, List.append_nil]
    have := splitAux_scan a [] cur ha (by simp)
    simp only [List.append_nil] at this
    rw [this]
    simp [splitAux]
  | cons b rest2 ih =>
    have hb : '|' ∉ b := hrest b (List.mem_cons_self _ _)
    have hrest2 : ∀ x ∈ rest2, '|' ∉ x := fun x hx => hrest x (List.mem_cons_of_mem _ hx)
    simp only [List.flatMap_cons, List.append_assoc]
    rw [splitAux_scan a _ cur ha (by simp)]
    have h2 := splitAux_sep (a.reverse ++ cur)
      (b ++ rest2.flatMap (fun b => ['@', '|', '@'] ++ b))
    have ih2 := ih b [] hb hrest2
    simp only [List.cons_append, List.nil_append] at h2 ih2 ⊢
    rw [h2, ih2]
    simp

/-- C14: the recipients column round-trips.  For every recipient list other than the list
holding one empty string, in which no recipient contains `|`, what `Details` reads from the
string that `Create` stores (the recipients joined with `@|@`) is the original list; and
the empty list is stored as the empty string and read back as the empty list, where a
plain `strings.Split` would give a list holding one empty string. -/
theorem recipients_roundtrip (recipients : List String) (hne : recipients ≠ [""])
    (hbar : ∀ r ∈ recipients, '|' ∉ r.data) :
    sqlite.detailsRecipients (sqlite.createRecipients recipients) = recipients ∧
    sqlite.createRecipients [] = "" ∧
    sqlite.detailsRecipients (sqlite.createRecipients []) = [] ∧
    stringsSplit (sqlite.createRecipients []) sqlite.RecipientsSeparator = [""] := by
  refine ⟨?_, rfl, rfl, rfl⟩
  cases recipients with
  | nil => rfl
  | cons a rest =>
    have hdata : (sqlite.createRecipients (a :: rest)).data
        = a.data ++ (rest.map String.data).flatMap (fun b => ['@', '|', '@'] ++ b) := by
      unfold sqlite.createRecipients
      rw [stringsJoin_cons_data]
      simp [sqlite.RecipientsSeparator, List.flatMap_map]
    have hlen : (sqlite.createRecipients (a :: rest)).length > 0 := by
      show (sqlite.createRecipients (a :: rest)).data.length > 0
      rw [hdata]
      cases rest with
      | nil =>
        have ha : a.data ≠ [] := by
          intro h
          apply hne
          have : a = "" := String.ext h
          rw [this]
        simp only [List.map_nil, List.flatMap_nil, List.append_nil]
        exact List.length_pos.mpr ha
      | cons b rest2 => simp
    unfold sqlite.detailsRecipients
    rw [if_pos hlen]
    unfold stringsSplit
    have hsep : sqlite.RecipientsSeparator.data = ['@', '|', '@'] := rfl
    rw [hsep, if_neg (by simp), hdata]
    rw [splitAux_join (rest.map String.data) a.data [] (hbar a (List.mem_cons_self _ _))
      (by
        intro b hb
        obtain ⟨r, hr, rfl⟩ := List.mem_map.mp hb
        exact hbar r (List.mem_cons_of_mem _ hr))]
    simp only [List.reverse_nil, List.nil_append, List.map_cons, List.map_map]
    have hid : (String.mk ∘ String.data) = id := rfl
    rw [hid, List.map_id]

/-- C14 at a concrete input: two mail addresses. -/
theorem recipients_roundtrip_witness :
    (["ops@example.org", "dev@example.org"] : List String) ≠ [""] ∧
    (∀ r ∈ (["ops@example.org", "dev@example.org"] : List String), '|' ∉ r.data) ∧
    sqlite.createRecipients ["ops@example.org", "dev@example.org"]
      = "ops@example.org@|@dev@example.org" ∧
    sqlite.detailsRecipients (sqlite.createRecipients ["ops@example.org", "dev@example.org"])
      = ["ops@example.org", "dev@example.org"] :=
  ⟨by decide, by decide, by decide,
    (recipients_roundtrip ["ops@example.org", "dev@example.org"] (by decide) (by decide)).1⟩

/-! ### `SSHFileProvider.Open` -/

/-- When the SFTP client is established and opening the remote file fails, `Open` returns
that error in the state the failed open left: the client is not closed. -/
theorem SSHFileProvider_Open_file_error {σ κ φ : Type} (sfp : SSHFileProvider σ κ φ)
    (path : String) (s s1 s2 : σ) (sftpCl : κ) (err : Error)
    (hclient : sfp.NewClient s = (.ok sftpCl, s1))
    (hfile : sfp.ClientOpen sftpCl path s1 = (.error err, s2)) :
    sfp.Open path s = (.error err, s2) := by
  unfold SSHFileProvider.Open
  rw [hclient]
  dsimp only
  rw [hfile]

/-- C11 at the failing input: the server has `/remote/f.txt` only and `/remote/missing.txt`
is opened on a connection that holds nothing.  The SFTP client is established, the file
open fails, and `Open` returns the error while the client it established is still open. -/
theorem SSHFileProvider_Open_leaks_client :
    (exampleSftp ["/remote/f.txt"]).NewClient ⟨[], [], 0⟩ = (.ok 0, ⟨[0], [], 1⟩) ∧
    (exampleSftp ["/remote/f.txt"]).ClientOpen 0 "/remote/missing.txt" ⟨[0], [], 1⟩
      = (.error "file does not exist", ⟨[0], [], 1⟩) ∧
    (exampleSftp ["/remote/f.txt"]).Open "/remote/missing.txt" ⟨[], [], 0⟩
      = (.error "file does not exist", ⟨[0], [], 1⟩) ∧
    ((exampleSftp ["/remote/f.txt"]).Open "/remote/missing.txt" ⟨[], [], 0⟩).2.openClients
      = [0] ∧
    ((exampleSftp ["/remote/f.txt"]).ClientClose 0
      ((exampleSftp ["/remote/f.txt"]).Open "/remote/missing.txt" ⟨[], [], 0⟩).2).2.openClients
      = [] :=
  ⟨rfl, rfl, rfl, rfl, rfl⟩

/-! ### Staging artifact after a failed install -/

/-- C13 at the failing input: the destination is absent and `hello` is staged and verified,
then the `Rename` onto the destination fails.  The call returns the error of the `Rename`,
nothing is at the destination, and the staging artifact is still at the staging path: no
`Remove` follows the failed `Rename`. -/
theorem stagingArtifact_left_when_install_fails :
    crossDeviceManager.getUploadedFile [] = .ok helloRequest ∧
    (crossDeviceManager.HandleUploadRequest [] emptyWorld).1 =
      .error "rename /tmp/up/f.txt /data/f.txt: invalid cross-device link" ∧
    (crossDeviceManager.HandleUploadRequest [] emptyWorld).2.trace =
      [Call.Exist "/data/f.txt", Call.CreateDirIfNotExists "/tmp/up" 0o764,
       Call.Exist "/tmp/up/f.txt", Call.SourceOpen "/remote/f.txt",
       Call.CreateFile "/tmp/up/f.txt", Call.SourceClose "/remote/f.txt",
       Call.CreateDirIfNotExists "/data" 0o764, Call.Exist "/data/f.txt",
       Call.Rename "/tmp/up/f.txt" "/data/f.txt"] ∧
    crossDeviceManager.FilesAPI.Exist "/tmp/up/f.txt"
      (crossDeviceManager.HandleUploadRequest [] emptyWorld).2.fs = .ok true ∧
    MemFS.content (crossDeviceManager.HandleUploadRequest [] emptyWorld).2.fs "/tmp/up/f.txt"
      = some helloBytes ∧
    crossDeviceManager.FilesAPI.Exist "/data/f.txt"
      (crossDeviceManager.HandleUploadRequest [] emptyWorld).2.fs = .ok false :=
  ⟨rfl, rfl, rfl, rfl, rfl, rfl⟩

/-! ### Metadata enforcement on the write path -/

namespace UploadManager

variable {σ : Type}

theorem traceExt_mono {P Q : Call → Prop} {w w1 : World σ} (hPQ : ∀ k, P k → Q k)
    (h : TraceExt P w w1) : TraceExt Q w w1 := by
  obtain ⟨l, e, hl⟩ := h
  exact ⟨l, e, fun k hk => hPQ k (hl k hk)⟩

/-- The calls of `copyFileToTempLocation` are staging calls. -/
theorem copyFileToTempLocation_stagingCalls (c : UploadManager σ) (remote : String) (mode : Nat)
    (expected : Bytes) (w : World σ) :
    TraceExt (fun k => k.stagingCall = true) w
      (c.copyFileToTempLocation remote mode expected w).2 := by
  unfold copyFileToTempLocation
  dsimp only
  rcases h1 : c.callCreateDirIfNotExists c.GetUploadDir
    (if mode = 0 then c.DefaultMode else mode) w with ⟨r1, w1⟩
  have t1 : TraceExt (fun k => k.stagingCall = true) w w1 :=
    traceExt_single (.CreateDirIfNotExists _ _) (congrArg (fun x => x.2.trace) h1).symm rfl
  cases r1 with
  | error e => exact t1
  | ok b1 =>
    dsimp only
    rcases h2 : c.callExist (filepath.Join c.GetUploadDir (filepath.Base remote)) w1
      with ⟨r2, w2⟩
    have t2 : TraceExt (fun k => k.stagingCall = true) w w2 :=
      traceExt_trans t1
        (traceExt_single (.Exist _) (congrArg (fun x => x.2.trace) h2).symm rfl)
    cases r2 with
    | error e => exact t2
    | ok b2 =>
      dsimp only
      have t3 : TraceExt (fun k => k.stagingCall = true) w
          (if b2 = true then
            c.callRemove (filepath.Join c.GetUploadDir (filepath.Base remote)) w2
           else (none, w2)).2 := by
        cases b2
        · exact t2
        · exact traceExt_trans t2 (traceExt_single (.Remove _) rfl rfl)
      rcases h3 : (if b2 = true then
            c.callRemove (filepath.Join c.GetUploadDir (filepath.Base remote)) w2
           else (none, w2)) with ⟨r3, w3⟩
      rw [h3] at t3
      cases r3 with
      | some e => exact t3
      | none =>
        dsimp only
        rcases h4 : c.callSourceOpen remote w3 with ⟨r4, w4⟩
        have t4 : TraceExt (fun k => k.stagingCall = true) w w4 :=
          traceExt_trans t3
            (traceExt_single (.SourceOpen _) (congrArg (fun x => x.2.trace) h4).symm rfl)
        cases r4 with
        | error e => exact t4
        | ok remoteFile =>
          dsimp only
          rcases h5 : c.callCreateFile (filepath.Join c.GetUploadDir (filepath.Base remote))
            remoteFile w4 with ⟨r5, w5⟩
          have t5 : TraceExt (fun k => k.stagingCall = true) w w5 :=
            traceExt_trans t4
              (traceExt_single (.CreateFile _) (congrArg (fun x => x.2.trace) h5).symm rfl)
          cases r5 with
          | error e => exact traceExt_trans t5 (traceExt_single (.SourceClose _) rfl rfl)
          | ok res =>
            obtain ⟨copiedBytes, md5Checksum⟩ := res
            dsimp only
            split
            · exact traceExt_trans (traceExt_trans t5 (traceExt_single (.Remove _) rfl rfl))
                (traceExt_single (.SourceClose _) rfl rfl)
            · exact traceExt_trans t5 (traceExt_single (.SourceClose _) rfl rfl)

/-- The calls of `copyFileToDestination` are install calls. -/
theorem copyFileToDestination_installCalls (c : UploadManager σ) (tempFilePath : String)
    (req : UploadedFile) (w : World σ) :
    TraceExt (fun k => k.installCall = true) w
      (c.copyFileToDestination tempFilePath req w).2 := by
  unfold copyFileToDestination prepareDestinationDir
  dsimp only
  rcases h1 : c.callCreateDirIfNotExists (filepath.Dir req.DestinationPath)
    (if req.DestinationFileMode = 0 then c.DefaultMode else req.DestinationFileMode) w
    with ⟨r1, w1⟩
  have t1 : TraceExt (fun k => k.installCall = true) w w1 :=
    traceExt_single (.CreateDirIfNotExists _ _) (congrArg (fun x => x.2.trace) h1).symm rfl
  cases r1 with
  | error e => exact t1
  | ok b1 =>
    dsimp only
    rcases h2 : c.callExist req.DestinationPath w1 with ⟨r2, w2⟩
    have t2 : TraceExt (fun k => k.installCall = true) w w2 :=
      traceExt_trans t1
        (traceExt_single (.Exist _) (congrArg (fun x => x.2.trace) h2).symm rfl)
    cases r2 with
    | error e => exact t2
    | ok b2 =>
      dsimp only
      have t3 : TraceExt (fun k => k.installCall = true) w
          (if b2 = true then c.callRemove req.DestinationPath w2 else (none, w2)).2 := by
        cases b2
        · exact t2
        · exact traceExt_trans t2 (traceExt_single (.Remove _) rfl rfl)
      rcases h3 : (if b2 = true then c.callRemove req.DestinationPath w2 else (none, w2))
        with ⟨r3, w3⟩
      rw [h3] at t3
      cases r3 with
      | some e => exact t3
      | none =>
        dsimp only
        rcases h4 : c.callRename tempFilePath req.DestinationPath w3 with ⟨r4, w4⟩
        have t4 : TraceExt (fun k => k.installCall = true) w w4 :=
          traceExt_trans t3
            (traceExt_single (.Rename _ _) (congrArg (fun x => x.2.trace) h4).symm rfl)
        cases r4 with
        | some e => exact t4
        | none => exact t4

/-- The world after `hashSumMatch`: the `Open` of the path is recorded. -/
theorem hashSumMatch_world (c : UploadManager σ) (path : String) (expected : Bytes)
    (w : World σ) : (c.hashSumMatch path expected w).2 = w.log (.Open path) := by
  unfold hashSumMatch callOpen
  cases c.FilesAPI.Open path w.fs with
  | error e => rfl
  | ok file =>
    dsimp only
    cases file.readErr with
    | some e => rfl
    | none =>
      dsimp only
      split <;> rfl

/-- The calls of `ownerOrGroupDiverges` are queries. -/
theorem ownerOrGroupDiverges_queryCalls (c : UploadManager σ) (req : UploadedFile)
    (w : World σ) :
    TraceExt (fun k => k.queryCall = true) w (c.ownerOrGroupDiverges req w).2 := by
  unfold ownerOrGroupDiverges callFileOwnerOrGroupMatch
  split
  · cases c.FilesAPI.FileOwnerOrGroupMatch req.DestinationPath req.DestinationFileOwner
      req.DestinationFileGroup w.fs with
    | error e => exact traceExt_single (.FileOwnerOrGroupMatch _ _ _) rfl rfl
    | ok b =>
      dsimp only
      split <;> exact traceExt_single (.FileOwnerOrGroupMatch _ _ _) rfl rfl
  · exact traceExt_refl w

/-- The calls of `fileShouldBeSynched` are queries. -/
theorem fileShouldBeSynched_queryCalls (c : UploadManager σ) (req : UploadedFile)
    (w : World σ) :
    TraceExt (fun k => k.queryCall = true) w (c.fileShouldBeSynched req w).2 := by
  unfold fileShouldBeSynched
  split
  · exact traceExt_refl w
  · have hw := c.hashSumMatch_world req.DestinationPath req.Md5Checksum w
    rcases hh : c.hashSumMatch req.DestinationPath req.Md5Checksum w with ⟨r1, w1⟩
    rw [hh] at hw
    dsimp only at hw
    subst hw
    have t1 : TraceExt (fun k => k.queryCall = true) w (w.log (.Open req.DestinationPath)) :=
      traceExt_single (.Open _) rfl rfl
    cases r1 with
    | error e => exact t1
    | ok b =>
      dsimp only
      split
      · exact t1
      · split
        · unfold callFileModeMatch
          cases c.FilesAPI.FileModeMatch req.DestinationPath req.DestinationFileMode
            (w.log (.Open req.DestinationPath)).fs with
          | error e => exact traceExt_trans t1 (traceExt_single (.FileModeMatch _ _) rfl rfl)
          | ok m =>
            dsimp only
            split
            · exact traceExt_trans t1 (traceExt_single (.FileModeMatch _ _) rfl rfl)
            · exact traceExt_trans
                (traceExt_trans t1 (traceExt_single (.FileModeMatch _ _) rfl rfl))
                (c.ownerOrGroupDiverges_queryCalls req _)
        · exact traceExt_trans t1 (c.ownerOrGroupDiverges_queryCalls req _)

/-- The calls made before the write path is entered are queries. -/
theorem writePathEntry_queryCalls (c : UploadManager σ) (req : UploadedFile) (w w0 : World σ)
    (h : c.writePathEntry req w = some w0) :
    TraceExt (fun k => k.queryCall = true) w w0 := by
  unfold writePathEntry callExist at h
  have t1 : TraceExt (fun k => k.queryCall = true) w (w.log (.Exist req.DestinationPath)) :=
    traceExt_single (.Exist _) rfl rfl
  cases he : c.FilesAPI.Exist req.DestinationPath w.fs with
  | error e => rw [he] at h; simp at h
  | ok b =>
    rw [he] at h
    dsimp only at h
    split at h
    · simp only [Option.some.injEq] at h
      rw [← h]
      exact t1
    · have t2 := c.fileShouldBeSynched_queryCalls req (w.log (.Exist req.DestinationPath))
      rcases hs : c.fileShouldBeSynched req (w.log (.Exist req.DestinationPath)) with ⟨r, w2⟩
      rw [hs] at h t2
      cases r with
      | error e => simp at h
      | ok b2 =>
        cases b2 with
        | false => simp at h
        | true =>
          simp only [Option.some.injEq] at h
          rw [← h]
          exact traceExt_trans t1 t2

/-- The trace after `chmodFile`. -/
theorem chmodFile_calls (c : UploadManager σ) (path : String) (mode : Nat) (w : World σ) :
    (c.chmodFile path mode w).2.trace
      = w.trace ++ (if mode = 0 then [] else [Call.ChangeMode path mode]) := by
  unfold chmodFile callChangeMode
  split <;> simp

/-- The trace after `chownFile`. -/
theorem chownFile_calls (c : UploadManager σ) (path owner group : String) (w : World σ) :
    (c.chownFile path owner group w).2.trace
      = w.trace ++ (if owner = "" ∧ group = "" then []
          else [Call.ChangeOwner path owner group]) := by
  unfold chownFile callChangeOwner
  split <;> simp

/-- A successful install carries the metadata matches of the staging file to the
destination. -/
theorem copyFileToDestination_carries (c : UploadManager σ) (laws : MetadataLaws c.FilesAPI)
    (tmp : String) (req : UploadedFile) (w w1 : World σ)
    (h : c.copyFileToDestination tmp req w = (none, w1)) :
    (∀ m, c.FilesAPI.FileModeMatch tmp m w.fs = .ok true →
      c.FilesAPI.FileModeMatch req.DestinationPath m w1.fs = .ok true) ∧
    (∀ o g, c.FilesAPI.FileOwnerOrGroupMatch tmp o g w.fs = .ok true →
      c.FilesAPI.FileOwnerOrGroupMatch req.DestinationPath o g w1.fs = .ok true) := by
  obtain ⟨b, s3, hexist, hremove, hrename⟩ := c.copyFileToDestination_ok tmp req w w1 h
  obtain ⟨hsrc, hmode, howner⟩ := laws.rename _ _ _ _ hrename
  cases b with
  | false =>
    simp only [Bool.false_eq_true, if_false] at hremove
    subst hremove
    exact ⟨fun m hm => hmode m (laws.createDir_mode _ _ _ _ _ hm),
      fun o g ho => howner o g (laws.createDir_owner _ _ _ _ _ _ ho)⟩
  | true =>
    simp only [if_true] at hremove
    obtain ⟨hgone, hkeepMode, hkeepOwner⟩ := laws.remove _ _ _ hremove
    have hne : tmp ≠ req.DestinationPath := by
      intro e
      rw [e, hgone] at hsrc
      simp at hsrc
    exact ⟨fun m hm => hmode m (hkeepMode tmp m hne (laws.createDir_mode _ _ _ _ _ hm)),
      fun o g ho => howner o g (hkeepOwner tmp o g hne (laws.createDir_owner _ _ _ _ _ _ ho))⟩

/-- The world after the write path when staging succeeded: the one `copyFileToDestination`
leaves, run after `chmodFile` and `chownFile`. -/
theorem handleWritingFile_staged_world (c : UploadManager σ) (req : UploadedFile)
    (w0 w1 : World σ) (n : Int) (tmp : String)
    (hstage : c.copyFileToTempLocation req.SourceFilePath req.DestinationFileMode
      req.Md5Checksum w0 = (.ok (n, tmp), w1)) :
    (c.handleWritingFile req w0).2 =
      (c.copyFileToDestination tmp req
        (c.chownFile tmp req.DestinationFileOwner req.DestinationFileGroup
          (c.chmodFile tmp req.DestinationFileMode w1).2).2).2 := by
  unfold handleWritingFile
  rw [hstage]
  dsimp only
  rcases c.copyFileToDestination tmp req
    (c.chownFile tmp req.DestinationFileOwner req.DestinationFileGroup
      (c.chmodFile tmp req.DestinationFileMode w1).2).2 with ⟨r4, w4⟩
  cases r4 <;> rfl

/-- The response of the write path when staging succeeded: the install succeeded, and the
message is the joined list of the warnings and the confirmation. -/
theorem handleWritingFile_staged_ok (c : UploadManager σ) (req : UploadedFile)
    (w0 w1 wf : World σ) (n : Int) (tmp : String) (resp : UploadResponse)
    (hstage : c.copyFileToTempLocation req.SourceFilePath req.DestinationFileMode
      req.Md5Checksum w0 = (.ok (n, tmp), w1))
    (h : c.handleWritingFile req w0 = (.ok resp, wf)) :
    c.copyFileToDestination tmp req
        (c.chownFile tmp req.DestinationFileOwner req.DestinationFileGroup
          (c.chmodFile tmp req.DestinationFileMode w1).2).2 = (none, wf) ∧
    resp.Message = stringsJoin
      ((match (c.chmodFile tmp req.DestinationFileMode w1).1 with
        | some err => ["chmod failed: " ++ err]
        | none => []) ++
       (match (c.chownFile tmp req.DestinationFileOwner req.DestinationFileGroup
          (c.chmodFile tmp req.DestinationFileMode w1).2).1 with
        | some err => ["chown of " ++ tmp ++ " failed: " ++ err]
        | none => []) ++
       ["file successfully copied to destination " ++ req.DestinationPath]) "." := by
  unfold handleWritingFile at h
  rw [hstage] at h
  dsimp only at h
  rcases hd : c.copyFileToDestination tmp req
    (c.chownFile tmp req.DestinationFileOwner req.DestinationFileGroup
      (c.chmodFile tmp req.DestinationFileMode w1).2).2 with ⟨r4, w4⟩
  rw [hd] at h
  cases r4 with
  | some e => simp at h
  | none =>
    simp only [Prod.mk.injEq, Except.ok.injEq] at h
    obtain ⟨hresp, hw⟩ := h
    subst hw
    refine ⟨rfl, ?_⟩
    rw [← hresp]
    dsimp only
    cases (c.chownFile tmp req.DestinationFileOwner req.DestinationFileGroup
      (c.chmodFile tmp req.DestinationFileMode w1).2).1 <;>
      cases (c.chmodFile tmp req.DestinationFileMode w1).1 <;> simp

/-- C12, as the code has it: on a write-path execution whose staging succeeds, no
`ChangeMode`, `ChangeOwner` or `Rename` is called up to the end of staging; then
`ChangeMode` is called exactly when the target mode is non-zero and `ChangeOwner` exactly
when owner or group is non-empty, each with the staging path; only the calls of the install
(among them the `Rename` onto the destination) follow.  Hence, over a filesystem that
satisfies `MetadataLaws`, for every response (its status is `success`): the target mode is
0, or the destination matches the requested mode, or `ChangeMode` failed and the message
starts with the `chmod failed` fragment; and owner and group are empty, or the destination
matches the requested owner and group, or `ChangeOwner` failed and the message holds the
`chown of <staging path> failed` fragment. -/
theorem HandleUploadRequest_metadata_before_install (c : UploadManager σ) (payload : Bytes)
    (req : UploadedFile) (w w0 w1 : World σ) (n : Int) (tmp : String)
    (hreq : c.getUploadedFile payload = .ok req)
    (hentry : c.writePathEntry req w = some w0)
    (hstage : c.copyFileToTempLocation req.SourceFilePath req.DestinationFileMode
      req.Md5Checksum w0 = (.ok (n, tmp), w1)) :
    tmp = filepath.Join c.GetUploadDir (filepath.Base req.SourceFilePath) ∧
    TraceExt (fun k => k.metadataCall = false ∧ k.isRename = false) w w1 ∧
    (∃ post, (c.HandleUploadRequest payload w).2.trace =
        w1.trace ++
          (if req.DestinationFileMode = 0 then []
           else [Call.ChangeMode tmp req.DestinationFileMode]) ++
          (if req.DestinationFileOwner = "" ∧ req.DestinationFileGroup = "" then []
           else [Call.ChangeOwner tmp req.DestinationFileOwner req.DestinationFileGroup]) ++
          post ∧
      ∀ k ∈ post, k.installCall = true) ∧
    (MetadataLaws c.FilesAPI →
      ∀ resp wf, c.HandleUploadRequest payload w = (.ok resp, wf) →
        resp.Status = "success" ∧
        (req.DestinationFileMode = 0 ∨
          c.FilesAPI.FileModeMatch req.DestinationPath req.DestinationFileMode wf.fs
            = .ok true ∨
          ∃ e rest,
            (c.FilesAPI.ChangeMode tmp req.DestinationFileMode w1.fs).1 = some e ∧
            resp.Message = stringsJoin (("chmod failed: " ++ e) :: rest) ".") ∧
        ((req.DestinationFileOwner = "" ∧ req.DestinationFileGroup = "") ∨
          c.FilesAPI.FileOwnerOrGroupMatch req.DestinationPath req.DestinationFileOwner
            req.DestinationFileGroup wf.fs = .ok true ∨
          ∃ e pre rest,
            (c.FilesAPI.ChangeOwner tmp req.DestinationFileOwner req.DestinationFileGroup
              (c.chmodFile tmp req.DestinationFileMode w1).2.fs).1 = some e ∧
            resp.Message = stringsJoin
              (pre ++ ("chown of " ++ tmp ++ " failed: " ++ e) :: rest) ".")) := by
  have heq := c.HandleUploadRequest_of_writePathEntry payload req w w0 hreq hentry
  refine ⟨(c.copyFileToTempLocation_ok _ _ _ _ _ _ _ hstage).1, ?_, ?_, ?_⟩
  · -- nothing but queries and staging calls up to the end of staging
    have t1 := traceExt_mono (Q := fun k => k.metadataCall = false ∧ k.isRename = false)
      (fun k hk => by cases k <;> simp_all [Call.queryCall, Call.metadataCall, Call.isRename])
      (c.writePathEntry_queryCalls req w w0 hentry)
    have t2 := c.copyFileToTempLocation_stagingCalls req.SourceFilePath
      req.DestinationFileMode req.Md5Checksum w0
    rw [hstage] at t2
    exact traceExt_trans t1 (traceExt_mono
      (fun k hk => by cases k <;> simp_all [Call.stagingCall, Call.metadataCall, Call.isRename])
      t2)
  · -- the metadata calls, then the install
    rw [heq, c.handleWritingFile_staged_world req w0 w1 n tmp hstage]
    obtain ⟨post, hpost, hall⟩ := c.copyFileToDestination_installCalls tmp req
      (c.chownFile tmp req.DestinationFileOwner req.DestinationFileGroup
        (c.chmodFile tmp req.DestinationFileMode w1).2).2
    refine ⟨post, ?_, hall⟩
    rw [hpost, chownFile_calls, chmodFile_calls]
  · intro laws resp wf hcall
    rw [heq] at hcall
    obtain ⟨hd, hmsg⟩ := c.handleWritingFile_staged_ok req w0 w1 wf n tmp resp hstage hcall
    obtain ⟨hcarryMode, hcarryOwner⟩ := c.copyFileToDestination_carries laws tmp req _ wf hd
    refine ⟨c.handleWritingFile_status req w0 wf resp hcall, ?_, ?_⟩
    · by_cases hm : req.DestinationFileMode = 0
      · exact Or.inl hm
      · right
        rcases hcm : c.FilesAPI.ChangeMode tmp req.DestinationFileMode w1.fs with ⟨r2, s2⟩
        have hchmod : c.chmodFile tmp req.DestinationFileMode w1
            = (r2, ⟨s2, w1.trace ++ [Call.ChangeMode tmp req.DestinationFileMode]⟩) := by
          unfold chmodFile callChangeMode
          rw [if_neg hm, hcm]
        cases r2 with
        | some e =>
          right
          have h1 : (c.chmodFile tmp req.DestinationFileMode w1).1 = some e := by
            rw [hchmod]
          refine ⟨e,
            (match (c.chownFile tmp req.DestinationFileOwner req.DestinationFileGroup
                (c.chmodFile tmp req.DestinationFileMode w1).2).1 with
              | some err => ["chown of " ++ tmp ++ " failed: " ++ err]
              | none => []) ++
             ["file successfully copied to destination " ++ req.DestinationPath], rfl, ?_⟩
          rw [hmsg, h1]
          simp
        | none =>
          left
          apply hcarryMode
          have hset := laws.changeMode _ _ _ _ hcm
          rw [hchmod]
          unfold chownFile callChangeOwner
          dsimp only
          split
          · exact hset
          · exact laws.changeOwner_mode _ _ _ _ _ _ hset
    · by_cases ho : req.DestinationFileOwner = "" ∧ req.DestinationFileGroup = ""
      · exact Or.inl ho
      · right
        rcases hco : c.FilesAPI.ChangeOwner tmp req.DestinationFileOwner
          req.DestinationFileGroup (c.chmodFile tmp req.DestinationFileMode w1).2.fs
          with ⟨r3, s3⟩
        have hchown : c.chownFile tmp req.DestinationFileOwner req.DestinationFileGroup
            (c.chmodFile tmp req.DestinationFileMode w1).2
            = (r3, ⟨s3, (c.chmodFile tmp req.DestinationFileMode w1).2.trace ++
                [Call.ChangeOwner tmp req.DestinationFileOwner req.DestinationFileGroup]⟩) := by
          unfold chownFile callChangeOwner
          rw [if_neg ho, hco]
        cases r3 with
        | some e =>
          right
          have h3 : (c.chownFile tmp req.DestinationFileOwner req.DestinationFileGroup
              (c.chmodFile tmp req.DestinationFileMode w1).2).1 = some e := by
            rw [hchown]
          refine ⟨e,
            (match (c.chmodFile tmp req.DestinationFileMode w1).1 with
              | some err => ["chmod failed: " ++ err]
              | none => []),
            ["file successfully copied to destination " ++ req.DestinationPath], rfl, ?_⟩
          rw [hmsg, h3]
          simp
        | none =>
          left
          apply hcarryOwner
          rw [hchown]
          exact laws.changeOwner _ _ _ _ _ hco

/-- The in-memory filesystem satisfies the laws of metadata. -/
theorem memAPI_metadataLaws : MetadataLaws memAPI where
  changeMode := by
    intro p m s s1 h
    simp only [memAPI] at h
    split at h
    · simp at h
    · simp only [Prod.mk.injEq, true_and] at h
      subst h
      simp [memAPI, MemFS.lookup_insert_self]
  changeOwner := by
    intro p o g s s1 h
    simp only [memAPI] at h
    split at h
    · simp at h
    · simp only [Prod.mk.injEq, true_and] at h
      subst h
      simp only [memAPI, MemFS.lookup_insert_self]
      by_cases ho : o = "" <;> by_cases hg : g = "" <;> simp [ho, hg]
  changeOwner_mode := by
    intro p o g s q m h
    simp only [memAPI] at h ⊢
    cases hp : MemFS.lookup p s with
    | none => simpa [hp] using h
    | some n =>
      simp only [hp]
      by_cases hq : q = p
      · subst hq
        rw [hp] at h
        simpa [MemFS.lookup_insert_self] using h
      · simpa [MemFS.lookup_insert_ne hq] using h
  createDir_mode := by
    intro p m s q m1 h
    simp only [memAPI] at h ⊢
    cases hp : MemFS.lookup p s with
    | some n => simpa [hp] using h
    | none =>
      simp only [hp]
      by_cases hq : q = p
      · subst hq
        rw [hp] at h
        simp at h
      · simpa [MemFS.lookup_insert_ne hq] using h
  createDir_owner := by
    intro p m s q o g h
    simp only [memAPI] at h ⊢
    cases hp : MemFS.lookup p s with
    | some n => simpa [hp] using h
    | none =>
      simp only [hp]
      by_cases hq : q = p
      · subst hq
        rw [hp] at h
        simp at h
      · simpa [MemFS.lookup_insert_ne hq] using h
  remove := by
    intro p s s1 h
    have hs := memAPI_remove h
    subst hs
    refine ⟨by simp [memAPI_exist, MemFS.lookup_erase_self], ?_, ?_⟩
    · intro q m hq hm
      simpa [memAPI, MemFS.lookup_erase_ne hq] using hm
    · intro q o g hq ho
      simpa [memAPI, MemFS.lookup_erase_ne hq] using ho
  rename := by
    intro p q s s1 h
    obtain ⟨n, hn, hs⟩ := memAPI_rename h
    subst hs
    refine ⟨by simp [memAPI_exist, hn], ?_, ?_⟩
    · intro m hm
      simpa [memAPI, MemFS.lookup_insert_self, hn] using hm
    · intro o g ho
      simpa [memAPI, MemFS.lookup_insert_self, hn] using ho

/-- C12 at a concrete input: `hello` is written with mode, owner and group; `ChangeMode` and
`ChangeOwner` are called on the staging path before the install, and the destination
carries the requested metadata. -/
theorem HandleUploadRequest_metadata_before_install_witness :
    ownedManager.getUploadedFile [] = .ok metadataRequest ∧
    ownedManager.writePathEntry metadataRequest emptyWorld
      = some (emptyWorld.log (.Exist "/data/f.txt")) ∧
    (ownedManager.copyFileToTempLocation "/remote/f.txt" 0o600 (md5.Sum helloBytes)
      (emptyWorld.log (.Exist "/data/f.txt"))).1 = .ok (5, "/tmp/up/f.txt") ∧
    MetadataLaws ownedManager.FilesAPI ∧
    (∃ post, (ownedManager.HandleUploadRequest [] emptyWorld).2.trace =
        [Call.Exist "/data/f.txt", Call.CreateDirIfNotExists "/tmp/up" 0o600,
         Call.Exist "/tmp/up/f.txt", Call.SourceOpen "/remote/f.txt",
         Call.CreateFile "/tmp/up/f.txt", Call.SourceClose "/remote/f.txt"] ++
          [Call.ChangeMode "/tmp/up/f.txt" 0o600] ++
          [Call.ChangeOwner "/tmp/up/f.txt" "alice" "staff"] ++
          post ∧
      ∀ k ∈ post, k.installCall = true) ∧
    (ownedManager.HandleUploadRequest [] emptyWorld).2.trace =
      [Call.Exist "/data/f.txt", Call.CreateDirIfNotExists "/tmp/up" 0o600,
       Call.Exist "/tmp/up/f.txt", Call.SourceOpen "/remote/f.txt",
       Call.CreateFile "/tmp/up/f.txt", Call.SourceClose "/remote/f.txt",
       Call.ChangeMode "/tmp/up/f.txt" 0o600,
       Call.ChangeOwner "/tmp/up/f.txt" "alice" "staff",
       Call.CreateDirIfNotExists "/data" 0o600, Call.Exist "/data/f.txt",
       Call.Rename "/tmp/up/f.txt" "/data/f.txt"] ∧
    ownedManager.FilesAPI.FileModeMatch "/data/f.txt" 0o600
      (ownedManager.HandleUploadRequest [] emptyWorld).2.fs = .ok true ∧
    ownedManager.FilesAPI.FileOwnerOrGroupMatch "/data/f.txt" "alice" "staff"
      (ownedManager.HandleUploadRequest [] emptyWorld).2.fs = .ok true :=
  ⟨rfl, rfl, rfl, memAPI_metadataLaws,
    (HandleUploadRequest_metadata_before_install ownedManager [] metadataRequest emptyWorld
      (emptyWorld.log (.Exist "/data/f.txt"))
      (ownedManager.copyFileToTempLocation "/remote/f.txt" 0o600 (md5.Sum helloBytes)
        (emptyWorld.log (.Exist "/data/f.txt"))).2
      5 "/tmp/up/f.txt" rfl rfl rfl).2.2.1,
    rfl, rfl, rfl⟩

/-- C12 as stated fails.  A write-path execution whose remote open fails calls neither
`ChangeMode` nor `ChangeOwner` although the target mode is non-zero and owner and group are
given; and when the destination is the staging path, `ChangeMode` is called with the
destination path. -/
theorem metadata_calls_not_on_every_execution :
    offlineMetadataManager.getUploadedFile [] = .ok metadataRequest ∧
    offlineMetadataManager.writePathEntry metadataRequest emptyWorld
      = some (emptyWorld.log (.Exist "/data/f.txt")) ∧
    metadataRequest.DestinationFileMode ≠ 0 ∧
    metadataRequest.DestinationFileOwner ≠ "" ∧
    (offlineMetadataManager.HandleUploadRequest [] emptyWorld).2.trace =
      [Call.Exist "/data/f.txt", Call.CreateDirIfNotExists "/tmp/up" 0o600,
       Call.Exist "/tmp/up/f.txt", Call.SourceOpen "/remote/f.txt"] ∧
    aliasModeManager.getUploadedFile [] = .ok aliasModeRequest ∧
    aliasModeManager.writePathEntry aliasModeRequest aliasWorld
      = some (aliasWorld.log (.Exist "/tmp/up/f.txt")) ∧
    Call.ChangeMode aliasModeRequest.DestinationPath aliasModeRequest.DestinationFileMode
      ∈ (aliasModeManager.HandleUploadRequest [] aliasWorld).2.trace :=
  ⟨rfl, rfl, by decide, by decide, rfl, rfl, rfl, by decide⟩

end UploadManager

end Upload
